import Mathlib

/-!
Verification of the `tcd` ingestion pipeline (Go).

Shallow embedding of the pipeline's data model and the pure parts of its
worker bodies, taken from the repository sources:
  * `datastore/types.go`, the products migration (`part_006`) — entity types
  * the pipeline file (`unnamed/part_004`, with `unnamed/part_003` an earlier
    revision of the same file) — screening, conflict repair, duplicate-key
    extraction, the per-message bodies of the data / persistence / status /
    image workers
  * `tcd.go` — the orchestrator's seeding loop and four-step shutdown.

Go slices become `List`, Go `string` becomes `String`, machine integers
become `Int` (no overflow is relevant anywhere in this code), fallible code
(runtime panics: out-of-range indexing, `make` with negative length) returns
`Option` with `none` standing for the panic.
-/

namespace Tcd

/-- `datastore.Product` (fields as in the products table / `tcapi.Product`
after conversion by `toProducts`): store identity, names, rarity, the
business key `ProductNumber`, print edition, release date, raw custom
attributes, and the owning set / product-line identifiers. -/
structure Product where
  ProductId : Int := 0
  ProductLineName : String := ""
  ProductLineUrlName : String := ""
  ProductName : String := ""
  ProductUrlName : String := ""
  CustomAttributes : String := ""
  SetName : String := ""
  SetUrlName : String := ""
  RarityName : String := ""
  ProductNumber : String := ""
  PrintEdition : String := ""
  ReleaseDate : String := ""
  ProductLineId : Int := 0
  SetId : Int := 0
deriving Repr, DecidableEq

/-- The Go zero value of `datastore.Product` — what `make([]Product, n)`
fills its slots with. -/
def defaultProduct : Product := {}

/-- `datastore.Set`: store identity, owning product line, display name,
URL-safe name, item count. -/
structure Set where
  Id : Int := 0
  ProductLineId : Int := 0
  Name : String := ""
  UrlName : String := ""
  Count : Int := 0
deriving Repr, DecidableEq

/-- `datastore.Product_Line`: store identity, display name, URL-safe name. -/
structure Product_Line where
  Id : Int := 0
  Name : String := ""
  UrlName : String := ""
deriving Repr, DecidableEq

/-- `tcapi.SearchParams`. -/
structure SearchParams where
  ProductLine : String := ""
  SetName : String := ""
  ProductType : String := ""
  From : Int := 0
  Size : Int := 0
deriving Repr, DecidableEq

/-- `DataContext` (a FetchRequest): the search parameters, the target set,
and the owning product line (`part_004` lines 301-305). -/
structure DataContext where
  productLine : Product_Line
  set : Set
  searchParams : SearchParams
deriving Repr, DecidableEq

/-- `Job` (a FetchJob): the product line, the set, and the product list
(`part_004` lines 317-322). -/
structure Job where
  productLine : Product_Line
  set : Set
  productList : List Product
deriving Repr, DecidableEq

/-- The Go `error` values the status worker distinguishes: a
`*pgconn.PgError` (carrying SQLSTATE code and detail text), or any other
non-nil error. `errors.As(err, &pgErr)` succeeds exactly on the first form. -/
inductive GoError : Type where
  | pgError (code : String) (detail : String)
  | other (msg : String)
deriving Repr, DecidableEq

/-- `JobStatus` (a JobOutcome): success flag, error, reporting worker id,
and the originating job (`part_004` lines 324-330). -/
structure JobStatus where
  success : Bool
  err : Option GoError
  worker : Int
  job : Job
deriving Repr, DecidableEq

/-- `datastore.UniqueViolationError = "23505"` (repository.go). -/
def UniqueViolationError : String := "23505"

/-- `removeProductWithoutNumber` (`part_004` lines 128-136): keep the
products whose `ProductNumber` is non-empty, in order. -/
def removeProductWithoutNumber (products : List Product) : List Product :=
  products.filter (fun p => p.ProductNumber ≠ "")

/-- Loop of `removeDuplicateProducts` (`part_004` lines 115-125): walk the
list keeping each product whose `ProductNumber` has not been seen yet;
`seen` is the set of keys already kept. -/
def removeDuplicatesLoop (products : List Product) (seen : List String) : List Product :=
  match products with
  | [] => []
  | p :: rest =>
    if p.ProductNumber ∈ seen then removeDuplicatesLoop rest seen
    else p :: removeDuplicatesLoop rest (p.ProductNumber :: seen)

/-- `removeDuplicateProducts` (`part_004` lines 115-125). -/
def removeDuplicateProducts (products : List Product) : List Product :=
  removeDuplicatesLoop products []

/-- `screenProducts` (`part_004` lines 108-112): drop empty business keys,
then deduplicate keeping first occurrences. -/
def screenProducts (products : List Product) : List Product :=
  removeDuplicateProducts (removeProductWithoutNumber products)

/-- `removeProductByProductNumber` (`part_004` lines 139-148).  The Go body
is `filtered := make([]datastore.Product, len(products)-1)` — a slice of
`len-1` zero-value products — followed by a loop that *appends* every
product whose number differs from `number`.  On an empty list
`make([]Product, -1)` panics (`none`); otherwise the result is the
`len-1` zero values followed by the kept products. -/
def removeProductByProductNumber (products : List Product) (number : String) :
    Option (List Product) :=
  match products with
  | [] => none
  | _ :: _ =>
    some (List.replicate (products.length - 1) defaultProduct ++
      products.filter (fun p => p.ProductNumber ≠ number))

/-- `getProductIdByName` (`part_004` lines 151-158): first product whose
`ProductName` matches, else the zero value `0`. -/
def getProductIdByName (products : List Product) (name : String) : Int :=
  match products with
  | [] => 0
  | p :: rest => if p.ProductName = name then p.ProductId else getProductIdByName rest name

/-! ### `getDuplicateKey` and the regexp `\((.*?)\)`

`regexp.FindStringSubmatch` with pattern `\((.*?)\)` returns, when the
pattern matches, a slice of length 2: the whole leftmost match and the one
capture group; it returns nil when there is no match.  A match is an
opening parenthesis followed — with no intervening newline, since `.` does
not match `\n` — by a closing parenthesis. -/

/-- Leftmost-match scan helper: after an opening parenthesis, the group
closes iff a `)` occurs before any newline. -/
def groupCloses : List Char → Bool
  | [] => false
  | c :: rest => if c = ')' then true else if c = '\n' then false else groupCloses rest

/-- Whether `\((.*?)\)` matches the string: some `(` is followed (newline-free)
by a `)`. -/
def hasParenGroup : List Char → Bool
  | [] => false
  | c :: rest =>
    if c = '(' then (groupCloses rest || hasParenGroup rest) else hasParenGroup rest

/-- `getDuplicateKey` (`part_004` lines 391-399).  When the regexp matches,
`rs` has length 2 and the body evaluates `rs[3]` — an out-of-range index,
i.e. a runtime panic (`none`).  When it does not match, the guard
`len(rs) > 1` fails and the zero-value `number` (the empty string) is
returned. -/
def getDuplicateKey (errDetail : String) : Option String :=
  if hasParenGroup errDetail.data then none else some ""

/-- `assocProductsWithSetAndProductLine` (`part_004` lines 100-105): stamp
every product with the owning set and product-line identifiers. -/
def assocProductsWithSetAndProductLine (products : List Product) (setId productLineId : Int) :
    List Product :=
  products.map (fun p => { p with SetId := setId, ProductLineId := productLineId })

/-- `NewJob` (`part_004` lines 293-299). -/
def NewJob (productLine : Product_Line) (set : Set) (products : List Product) : Job :=
  { productLine := productLine, set := set, productList := products }

/-- `(*DataContext).UpdateSetCount` (`part_004` lines 308-310), on the data
worker's local copy of the context. -/
def UpdateSetCount (dc : DataContext) (count : Int) : DataContext :=
  { dc with set := { dc.set with Count := count } }

/-- `(*DataContext).UpdateSearchResultsSize` (`part_004` lines 313-315). -/
def UpdateSearchResultsSize (dc : DataContext) (size : Int) : DataContext :=
  { dc with searchParams := { dc.searchParams with Size := size } }

/-- The body of `dataWorker`'s loop for one received `DataContext`
(`part_004` lines 171-181), parameterised by the result `fetched` of the
external call `tcapi.FetchProductsInParts(dc.searchParams)`.  `none` means
the set is skipped (zero products fetched — note the emptiness test runs on
the *raw* fetch result, before screening); otherwise the emitted job. -/
def processDataContext (dc : DataContext) (fetched : List Product) : Option Job :=
  match fetched with
  | [] => none
  | _ :: _ =>
    let products := screenProducts fetched
    let dc := UpdateSetCount dc products.length
    let dc := UpdateSearchResultsSize dc products.length
    let products := assocProductsWithSetAndProductLine products dc.set.Id dc.productLine.Id
    some (NewJob dc.productLine dc.set products)

/-- The body of `jobWorker`'s loop for one received `Job` (`part_004` lines
199-209), parameterised by the result of the external call
`store.AddSetData` (`none` = nil error). -/
def mkJobStatus (workerId : Int) (job : Job) (storeErr : Option GoError) : JobStatus :=
  { success := storeErr.isNone, err := storeErr, worker := workerId, job := job }

/-- What one iteration of `statusWorker` (`part_004` lines 270-287) does
with a received `JobStatus`; each constructor records the observable
action. -/
inductive StatusEffect : Type where
  /-- success branch: print the set line and send the product list on the
  image-request channel. -/
  | emitImages (prods : List Product)
  /-- unique-violation branch: re-queue the repaired job on the job channel. -/
  | resubmit (j : Job)
  /-- default Postgres branch: `log.Printf("Unhandled Postgres error code %s
  for set %s: %v", pgErr.Code, status.job.productList[0].SetName, status.err)`. -/
  | logUnhandled (code : String) (setName : String) (err : Option GoError)
  /-- a failed status whose error is not a `*pgconn.PgError`: the body falls
  through — nothing is logged, nothing is sent. -/
  | noAction
  /-- a runtime panic inside the handler (`rs[3]` in `getDuplicateKey`,
  `make([]Product, -1)` in the repair, or `productList[0]` on an empty
  list). -/
  | panic
deriving Repr, DecidableEq

/-- One iteration of `statusWorker` (`part_004` lines 270-287). -/
def handleStatus (status : JobStatus) : StatusEffect :=
  if status.success then .emitImages status.job.productList
  else
    match status.err with
    | some (.pgError code detail) =>
      if code = UniqueViolationError then
        match getDuplicateKey detail with
        | none => .panic
        | some duplicateKey =>
          match removeProductByProductNumber status.job.productList duplicateKey with
          | none => .panic
          | some newList => .resubmit { status.job with productList := newList }
      else
        match status.job.productList with
        | [] => .panic
        | p :: _ => .logUnhandled code p.SetName status.err
    | _ => .noAction

/-- `fmt.Sprintf("%s%d_in_%s", CARD_IMAGE_DIR, id, tcapi.IMAGE_FORMAT_SUFFIX)`
(`part_004` line 239), with directory and suffix as parameters. -/
def mkImageFileName (dir : String) (id : Int) (suffix : String) : String :=
  dir ++ toString id ++ "_in_" ++ suffix

/-- Go map insertion (`imgFiles[fileName] = imgData`): overwrite the value
when the key is present, otherwise add the binding. -/
def insertAssoc {β : Type} (m : List (String × β)) (k : String) (v : β) :
    List (String × β) :=
  if m.any (fun kv => kv.1 = k) then
    m.map (fun kv => if kv.1 = k then (k, v) else kv)
  else m ++ [(k, v)]

/-- The image-collection loop of `imageWorker` (`part_004` lines 231-241):
for each product, fetch its image by source-side id (failures are skipped),
look up the store-assigned id by name, and store the data in the map under
the derived filename. -/
def collectImageFiles {β : Type} (dir suffix : String) (storeProducts : List Product)
    (fetchImage : Int → Option β) (prodList : List Product) (acc : List (String × β)) :
    List (String × β) :=
  match prodList with
  | [] => acc
  | p :: rest =>
    match fetchImage p.ProductId with
    | none => collectImageFiles dir suffix storeProducts fetchImage rest acc
    | some imgData =>
      let id := getProductIdByName storeProducts p.ProductName
      let fileName := mkImageFileName dir id suffix
      collectImageFiles dir suffix storeProducts fetchImage rest (insertAssoc acc fileName imgData)

/-- The body of `imageWorker`'s loop for one received product list
(`part_004` lines 221-247), parameterised by the result of
`store.GetProductsBySetName` (queried with `prodList[0].SetName`) and by the
external image fetch.  `none` is the runtime panic on `prodList[0]` when the
received list is empty; a store error is logged and the batch skipped
(`some []`); otherwise the association list of files written (each filename
written once, with the data of the last product mapped to it). -/
def processImageBatch {β : Type} (dir suffix : String) (prodList : List Product)
    (storeRes : Option (List Product)) (fetchImage : Int → Option β) :
    Option (List (String × β)) :=
  match prodList with
  | [] => none
  | _ :: _ =>
    match storeRes with
    | none => some []
    | some storeProducts =>
      some (collectImageFiles dir suffix storeProducts fetchImage prodList [])

/-! ### The worker pool as a transition system (C5)

The concurrent part of the pipeline — `LaunchWorkerPool` (`part_004` lines
333-357) plus the orchestrator's seeding loop and four-step shutdown
(`tcd.go` lines 211-233) — is embedded as a small-step interleaving
semantics.  Each goroutine is a control-state machine whose local
computation (the pure functions above) is folded into its channel receive;
the suspension points are exactly the channel operations.  Go channel
semantics: a send on a closed channel is a runtime panic (`panicked`); a
receive first drains the buffer and reports closure only when the buffer is
empty; a send blocks while the bounded buffer is full. -/

/-- A buffered Go channel: FIFO contents plus closed flag. -/
structure Chan (α : Type) where
  buf : List α
  closed : Bool
deriving Repr, DecidableEq

/-- Control state of a `dataWorker` goroutine: at the loop head (about to
receive), holding a job it must send, or exited. -/
inductive DWState where
  | idle
  | holding (j : Job)
  | done
deriving Repr, DecidableEq

/-- Control state of a `jobWorker` goroutine (Persistence Stage). -/
inductive JWState where
  | idle
  | holding (st : JobStatus)
  | done
deriving Repr, DecidableEq

/-- Control state of a `statusWorker` goroutine: holding a product list for
the image channel, holding a repaired job for the job channel, crashed on a
runtime panic inside the handler, or exited. -/
inductive SWState where
  | idle
  | holdImgs (ps : List Product)
  | holdJob (j : Job)
  | crashed
  | done
deriving Repr, DecidableEq

/-- Control state of an `imageWorker` goroutine (its processing has no
channel sends, so it needs no holding state). -/
inductive IWState where
  | idle
  | done
deriving Repr, DecidableEq

/-- Main's control state: the seeding loop over the remaining fetch
requests, then the close/wait ladder of `tcd.go` lines 226-233.  Each
`wait*` state means: the channel feeding that stage has just been closed and
main is blocked in the corresponding wait-group `Wait()`. -/
inductive MainPC where
  | seeding (pending : List DataContext)
  | waitData
  | waitJobs
  | waitStatus
  | waitImage
  | mdone
deriving Repr, DecidableEq

/-- The external collaborators and the channel capacities, fixed for a run:
the source's fetch result per request, the store's `AddSetData` outcome per
job, and the capacity of each bounded channel (`tcd.go` lines 198-206). -/
structure Env where
  fetchRes : DataContext → List Product
  storeRes : Job → Option GoError
  dcCap : Nat
  jobsCap : Nat
  statCap : Nat
  imgCap : Nat

/-- The global state of the pipeline. -/
structure PState where
  dcChan : Chan DataContext
  jobsChan : Chan Job
  statChan : Chan JobStatus
  imgChan : Chan (List Product)
  dataWs : List DWState
  jobWs : List JWState
  statusWs : List SWState
  imgWs : List IWState
  mainpc : MainPC
  panicked : Bool
deriving Repr, DecidableEq

/-- The initial state: `LaunchWorkerPool` has launched `n` persistence, `n`
data, `n` status and `n + 2` image workers, all channels are open and empty,
and main is about to run its seeding loop over `seeds`. -/
def initState (n : Nat) (seeds : List DataContext) : PState :=
  { dcChan := ⟨[], false⟩
    jobsChan := ⟨[], false⟩
    statChan := ⟨[], false⟩
    imgChan := ⟨[], false⟩
    dataWs := List.replicate n .idle
    jobWs := List.replicate n .idle
    statusWs := List.replicate n .idle
    imgWs := List.replicate (n + 2) .idle
    mainpc := .seeding seeds
    panicked := false }

/-- The local computation a status worker performs on a received outcome,
as a control-state outcome (`statusWorker` body, `part_004` lines 270-287). -/
def statusStepOf (st : JobStatus) : SWState :=
  match handleStatus st with
  | .emitImages ps => .holdImgs ps
  | .resubmit j => .holdJob j
  | .logUnhandled _ _ _ => .idle
  | .noAction => .idle
  | .panic => .crashed

/-- The local computation a data worker performs on a received request
(`dataWorker` body, `part_004` lines 171-181): skip when the raw fetch is
empty, otherwise hold the built job. -/
def dataStepOf (env : Env) (dc : DataContext) : DWState :=
  match processDataContext dc (env.fetchRes dc) with
  | none => .idle
  | some j => .holding j

/-- One interleaving step of the pipeline: one atomic action of main or of
one worker — a receive (with the worker's local computation folded in), a
send, an exit on a closed-and-drained input channel, one of main's
close/wait transitions, or the Go runtime panic of a send on a closed
channel (which sets `panicked`). -/
inductive Step (env : Env) : PState → PState → Prop where
  | mainSend (s : PState) (dc : DataContext) (pending : List DataContext)
      (hpc : s.mainpc = .seeding (dc :: pending))
      (hroom : s.dcChan.buf.length < env.dcCap) :
      Step env s { s with dcChan := ⟨s.dcChan.buf ++ [dc], s.dcChan.closed⟩
                          mainpc := .seeding pending }
  | mainCloseDc (s : PState)
      (hpc : s.mainpc = .seeding []) :
      Step env s { s with dcChan := ⟨s.dcChan.buf, true⟩, mainpc := .waitData }
  | mainCloseJobs (s : PState)
      (hpc : s.mainpc = .waitData)
      (hdone : ∀ w ∈ s.dataWs, w = DWState.done) :
      Step env s { s with jobsChan := ⟨s.jobsChan.buf, true⟩, mainpc := .waitJobs }
  | mainCloseStat (s : PState)
      (hpc : s.mainpc = .waitJobs)
      (hdone : ∀ w ∈ s.jobWs, w = JWState.done) :
      Step env s { s with statChan := ⟨s.statChan.buf, true⟩, mainpc := .waitStatus }
  | mainCloseImg (s : PState)
      (hpc : s.mainpc = .waitStatus)
      (hdone : ∀ w ∈ s.statusWs, w = SWState.done) :
      Step env s { s with imgChan := ⟨s.imgChan.buf, true⟩, mainpc := .waitImage }
  | mainFinish (s : PState)
      (hpc : s.mainpc = .waitImage)
      (hdone : ∀ w ∈ s.imgWs, w = IWState.done) :
      Step env s { s with mainpc := .mdone }
  | dataRecv (s : PState) (i : Nat) (dc : DataContext) (rest : List DataContext)
      (hw : s.dataWs[i]? = some .idle)
      (hbuf : s.dcChan.buf = dc :: rest) :
      Step env s { s with dcChan := ⟨rest, s.dcChan.closed⟩
                          dataWs := s.dataWs.set i (dataStepOf env dc) }
  | dataExit (s : PState) (i : Nat)
      (hw : s.dataWs[i]? = some .idle)
      (hbuf : s.dcChan.buf = [])
      (hclosed : s.dcChan.closed = true) :
      Step env s { s with dataWs := s.dataWs.set i .done }
  | dataSend (s : PState) (i : Nat) (j : Job)
      (hw : s.dataWs[i]? = some (.holding j))
      (hopen : s.jobsChan.closed = false)
      (hroom : s.jobsChan.buf.length < env.jobsCap) :
      Step env s { s with jobsChan := ⟨s.jobsChan.buf ++ [j], s.jobsChan.closed⟩
                          dataWs := s.dataWs.set i .idle }
  | dataSendClosed (s : PState) (i : Nat) (j : Job)
      (hw : s.dataWs[i]? = some (.holding j))
      (hclosed : s.jobsChan.closed = true) :
      Step env s { s with panicked := true }
  | jobRecv (s : PState) (i : Nat) (j : Job) (rest : List Job)
      (hw : s.jobWs[i]? = some .idle)
      (hbuf : s.jobsChan.buf = j :: rest) :
      Step env s { s with jobsChan := ⟨rest, s.jobsChan.closed⟩
                          jobWs := s.jobWs.set i (.holding (mkJobStatus i j (env.storeRes j))) }
  | jobExit (s : PState) (i : Nat)
      (hw : s.jobWs[i]? = some .idle)
      (hbuf : s.jobsChan.buf = [])
      (hclosed : s.jobsChan.closed = true) :
      Step env s { s with jobWs := s.jobWs.set i .done }
  | jobSend (s : PState) (i : Nat) (st : JobStatus)
      (hw : s.jobWs[i]? = some (.holding st))
      (hopen : s.statChan.closed = false)
      (hroom : s.statChan.buf.length < env.statCap) :
      Step env s { s with statChan := ⟨s.statChan.buf ++ [st], s.statChan.closed⟩
                          jobWs := s.jobWs.set i .idle }
  | jobSendClosed (s : PState) (i : Nat) (st : JobStatus)
      (hw : s.jobWs[i]? = some (.holding st))
      (hclosed : s.statChan.closed = true) :
      Step env s { s with panicked := true }
  | statusRecv (s : PState) (i : Nat) (st : JobStatus) (rest : List JobStatus)
      (hw : s.statusWs[i]? = some .idle)
      (hbuf : s.statChan.buf = st :: rest) :
      Step env s { s with statChan := ⟨rest, s.statChan.closed⟩
                          statusWs := s.statusWs.set i (statusStepOf st) }
  | statusExit (s : PState) (i : Nat)
      (hw : s.statusWs[i]? = some .idle)
      (hbuf : s.statChan.buf = [])
      (hclosed : s.statChan.closed = true) :
      Step env s { s with statusWs := s.statusWs.set i .done }
  | statusSendImg (s : PState) (i : Nat) (ps : List Product)
      (hw : s.statusWs[i]? = some (.holdImgs ps))
      (hopen : s.imgChan.closed = false)
      (hroom : s.imgChan.buf.length < env.imgCap) :
      Step env s { s with imgChan := ⟨s.imgChan.buf ++ [ps], s.imgChan.closed⟩
                          statusWs := s.statusWs.set i .idle }
  | statusSendImgClosed (s : PState) (i : Nat) (ps : List Product)
      (hw : s.statusWs[i]? = some (.holdImgs ps))
      (hclosed : s.imgChan.closed = true) :
      Step env s { s with panicked := true }
  | statusResubmit (s : PState) (i : Nat) (j : Job)
      (hw : s.statusWs[i]? = some (.holdJob j))
      (hopen : s.jobsChan.closed = false)
      (hroom : s.jobsChan.buf.length < env.jobsCap) :
      Step env s { s with jobsChan := ⟨s.jobsChan.buf ++ [j], s.jobsChan.closed⟩
                          statusWs := s.statusWs.set i .idle }
  | statusResubmitClosed (s : PState) (i : Nat) (j : Job)
      (hw : s.statusWs[i]? = some (.holdJob j))
      (hclosed : s.jobsChan.closed = true) :
      Step env s { s with panicked := true }
  | imgRecv (s : PState) (i : Nat) (ps : List Product) (rest : List (List Product))
      (hw : s.imgWs[i]? = some .idle)
      (hbuf : s.imgChan.buf = ps :: rest) :
      Step env s { s with imgChan := ⟨rest, s.imgChan.closed⟩ }
  | imgExit (s : PState) (i : Nat)
      (hw : s.imgWs[i]? = some .idle)
      (hbuf : s.imgChan.buf = [])
      (hclosed : s.imgChan.closed = true) :
      Step env s { s with imgWs := s.imgWs.set i .done }

/-- Reachability from a given start state. -/
def Reach (env : Env) (start s : PState) : Prop :=
  Relation.ReflTransGen (Step env) start s

/-- No step is enabled. -/
def Stuck (env : Env) (s : PState) : Prop := ∀ s', ¬ Step env s s'

/-- The clean terminal configuration: main has passed every `Wait()` (all
four wait-groups are at zero) and every worker has exited. -/
def AllDone (s : PState) : Prop :=
  s.mainpc = .mdone ∧ (∀ w ∈ s.dataWs, w = DWState.done) ∧
    (∀ w ∈ s.jobWs, w = JWState.done) ∧ (∀ w ∈ s.statusWs, w = SWState.done) ∧
    (∀ w ∈ s.imgWs, w = IWState.done)

/-- How far main has progressed through its close/wait ladder. -/
def rank : MainPC → Nat
  | .seeding _ => 0
  | .waitData => 1
  | .waitJobs => 2
  | .waitStatus => 3
  | .waitImage => 4
  | .mdone => 5

/-- Weights of worker control states for the termination measure. -/
def dwWeight : DWState → Nat
  | .idle => 1
  | .holding _ => 8
  | .done => 0

def jwWeight : JWState → Nat
  | .idle => 1
  | .holding _ => 6
  | .done => 0

def swWeight : SWState → Nat
  | .idle => 1
  | .holdImgs _ => 4
  | .holdJob _ => 4
  | .crashed => 0
  | .done => 0

def iwWeight : IWState → Nat
  | .idle => 1
  | .done => 0

def mainWeight : MainPC → Nat
  | .seeding pending => 9 * pending.length + 6
  | .waitData => 5
  | .waitJobs => 4
  | .waitStatus => 3
  | .waitImage => 2
  | .mdone => 1

/-- Termination measure: every step of the success-only pipeline strictly
decreases it. -/
def pipeMeasure (s : PState) : Nat :=
  mainWeight s.mainpc + 8 * s.dcChan.buf.length + 6 * s.jobsChan.buf.length +
    4 * s.statChan.buf.length + 2 * s.imgChan.buf.length +
    (s.dataWs.map dwWeight).sum + (s.jobWs.map jwWeight).sum +
    (s.statusWs.map swWeight).sum + (s.imgWs.map iwWeight).sum

/-- The inductive invariant of the pipeline when every persistence attempt
succeeds (no conflict re-submissions): the closed flags mirror main's
progress, main's waits really did observe exited workers, exited workers
really did observe their closed drained channel, every outcome in flight is
a success, no status worker ever holds a repair job or has crashed, and no
send on a closed channel has happened. -/
def Inv (s : PState) : Prop :=
  (s.dcChan.closed = true ↔ 1 ≤ rank s.mainpc) ∧
  (s.jobsChan.closed = true ↔ 2 ≤ rank s.mainpc) ∧
  (s.statChan.closed = true ↔ 3 ≤ rank s.mainpc) ∧
  (s.imgChan.closed = true ↔ 4 ≤ rank s.mainpc) ∧
  (2 ≤ rank s.mainpc → ∀ w ∈ s.dataWs, w = DWState.done) ∧
  (3 ≤ rank s.mainpc → ∀ w ∈ s.jobWs, w = JWState.done) ∧
  (4 ≤ rank s.mainpc → ∀ w ∈ s.statusWs, w = SWState.done) ∧
  (5 ≤ rank s.mainpc → ∀ w ∈ s.imgWs, w = IWState.done) ∧
  ((∃ w ∈ s.dataWs, w = DWState.done) → s.dcChan.closed = true) ∧
  ((∃ w ∈ s.jobWs, w = JWState.done) → s.jobsChan.closed = true) ∧
  ((∃ w ∈ s.statusWs, w = SWState.done) → s.statChan.closed = true) ∧
  ((∃ w ∈ s.imgWs, w = IWState.done) → s.imgChan.closed = true) ∧
  (∀ st ∈ s.statChan.buf, st.success = true) ∧
  (∀ w ∈ s.jobWs, ∀ st, w = JWState.holding st → st.success = true) ∧
  (∀ w ∈ s.statusWs, (∀ j, w ≠ SWState.holdJob j) ∧ w ≠ SWState.crashed) ∧
  (s.dataWs ≠ [] ∧ s.jobWs ≠ [] ∧ s.statusWs ≠ [] ∧ s.imgWs ≠ []) ∧
  s.panicked = false

/-! ### Concrete example inputs used by witnesses and counterexamples -/

/-- A product with business key `"007"`. -/
def prodA : Product := { ProductNumber := "007", ProductName := "PA" }

/-- A product with business key `"008"`. -/
def prodB : Product := { ProductNumber := "008", ProductName := "PB" }

/-- Scenario A source data (spec §8): ten products, two of which share the
business key `"007"` and one of which has an empty business key. -/
def scenarioAProducts : List Product :=
  [{ ProductNumber := "007", ProductName := "P1" },
   { ProductNumber := "007", ProductName := "P2" },
   { ProductNumber := "", ProductName := "P3" },
   { ProductNumber := "101", ProductName := "P4" },
   { ProductNumber := "102", ProductName := "P5" },
   { ProductNumber := "103", ProductName := "P6" },
   { ProductNumber := "104", ProductName := "P7" },
   { ProductNumber := "105", ProductName := "P8" },
   { ProductNumber := "106", ProductName := "P9" },
   { ProductNumber := "107", ProductName := "P10" }]

/-- A fetch request targeting set id 3 of product line id 2. -/
def scenarioADC : DataContext :=
  { productLine := { Id := 2, Name := "Yu-Gi-Oh", UrlName := "yugioh" },
    set := { Id := 3, Name := "SetA", UrlName := "seta", ProductLineId := 2, Count := 10 },
    searchParams := { ProductLine := "yugioh", SetName := "seta", Size := 10 } }

/-- The job `dataWorker` emits for Scenario A: the screened eight products,
stamped with the owning identifiers, and the set with corrected count. -/
def scenarioAJob : Job :=
  { productLine := scenarioADC.productLine,
    set := { scenarioADC.set with Count := 8 },
    productList :=
      assocProductsWithSetAndProductLine (screenProducts scenarioAProducts) 3 2 }

/-- A failed outcome whose unique-violation detail contains no parenthesized
group, so `getDuplicateKey` yields no key (the empty string). -/
def noKeyStatus : JobStatus :=
  { success := false,
    err := some (.pgError "23505" "duplicate key value violates unique constraint"),
    worker := 1,
    job := { productLine := {}, set := { Name := "SetA" }, productList := [prodA] } }

/-- A failed outcome carrying a Postgres error that is not a unique
violation. -/
def pgOtherStatus : JobStatus :=
  { success := false,
    err := some (.pgError "42P01" "relation does not exist"),
    worker := 2,
    job := { productLine := {}, set := { Name := "SetA" },
             productList := [{ ProductNumber := "007", SetName := "SetA" }] } }

/-- A failed outcome whose error is not a Postgres error at all. -/
def nonPgStatus : JobStatus :=
  { success := false,
    err := some (.other "connection refused"),
    worker := 1,
    job := { productLine := {}, set := { Name := "SetA" }, productList := [prodA] } }

/-- Image-stage batch: product `A` has a store row (store id 5), product `B`
has none. -/
def imgProdA : Product := { ProductName := "A", ProductId := 10, SetName := "Base Set" }

def imgProdB : Product := { ProductName := "B", ProductId := 11, SetName := "Base Set" }

/-- The store's persisted product list for the set: a row for name `A` only. -/
def imgStoreRows : List Product := [{ ProductName := "A", ProductId := 5, SetName := "Base Set" }]

/-- An image fetch that succeeds for every source id, returning the id itself
as a marker for the image bytes. -/
def idFetch : Int → Option Int := fun i => some i

/-- A fetched list whose single product has an empty business key: non-empty
before screening, empty after. -/
def allScreenedFetched : List Product := [{ ProductName := "X", SetName := "SetS" }]

/-- The empty-product-list job the Data Stage emits for `allScreenedFetched`. -/
def emptyListJob : Job :=
  { productLine := { Id := 2 }, set := { Id := 3, Name := "SetS", Count := 0 }, productList := [] }

/-- The fetch request producing `emptyListJob`. -/
def emptyListDC : DataContext :=
  { productLine := { Id := 2 }, set := { Id := 3, Name := "SetS", Count := 1 },
    searchParams := {} }

/-- A unique-violation detail text with no parenthesized group, so the
status worker's repair path runs to its re-queue send (rather than
panicking in `getDuplicateKey`). -/
def cexDetail : String := "duplicate key value violates unique constraint"

/-- Environment for the C5 counterexample: every fetch returns one product,
every persistence attempt fails with a unique violation, channel capacities
as shaped in `tcd.go` for one worker per stage. -/
def cexEnv : Env :=
  { fetchRes := fun _ => [prodA]
    storeRes := fun _ => some (.pgError "23505" cexDetail)
    dcCap := 10
    jobsCap := 3
    statCap := 3
    imgCap := 3 }

/-- Environment whose persistence attempts all succeed (for the amended C5
theorem's witness). -/
def succEnv : Env :=
  { fetchRes := fun _ => [prodA]
    storeRes := fun _ => none
    dcCap := 10
    jobsCap := 3
    statCap := 3
    imgCap := 3 }

/-- The job the data worker builds from `scenarioADC` when the fetch yields
`[prodA]`. -/
def cexJob : Job :=
  { productLine := scenarioADC.productLine
    set := { scenarioADC.set with Count := 1 }
    productList := [{ prodA with SetId := 3, ProductLineId := 2 }] }

/-- The failed outcome the persistence worker reports for `cexJob` under
`cexEnv`. -/
def cexStatus : JobStatus :=
  { success := false
    err := some (.pgError "23505" cexDetail)
    worker := 0
    job := cexJob }

/-- Trace states of the C5 counterexample run (one worker per stage). -/
def c5s0 : PState := initState 1 [scenarioADC]

def c5s1 : PState := { c5s0 with dcChan := ⟨[scenarioADC], false⟩, mainpc := .seeding [] }

def c5s2 : PState := { c5s1 with dcChan := ⟨[scenarioADC], true⟩, mainpc := .waitData }

def c5s3 : PState := { c5s2 with dcChan := ⟨[], true⟩, dataWs := [.holding cexJob] }

def c5s4 : PState := { c5s3 with jobsChan := ⟨[cexJob], false⟩, dataWs := [.idle] }

def c5s5 : PState := { c5s4 with dataWs := [.done] }

def c5s6 : PState := { c5s5 with jobsChan := ⟨[cexJob], true⟩, mainpc := .waitJobs }

def c5s7 : PState := { c5s6 with jobsChan := ⟨[], true⟩, jobWs := [.holding cexStatus] }

def c5s8 : PState := { c5s7 with statChan := ⟨[cexStatus], false⟩, jobWs := [.idle] }

def c5s9 : PState := { c5s8 with statChan := ⟨[], false⟩, statusWs := [.holdJob cexJob] }

def c5s10 : PState := { c5s9 with panicked := true }

/-- A failed non-unique-violation outcome carrying the empty-list job. -/
def emptyListFailStatus : JobStatus :=
  { success := false,
    err := some (.pgError "42P01" "boom"),
    worker := 1,
    job := emptyListJob }

end Tcd

namespace Tcd

/-! ### Screening lemmas -/

/-- Everything kept by the deduplication loop comes from the input list. -/
theorem removeDuplicatesLoop_subset (xs : List Product) (seen : List String) :
    ∀ p ∈ removeDuplicatesLoop xs seen, p ∈ xs := by
  induction xs generalizing seen with
  | nil => simp [removeDuplicatesLoop]
  | cons x rest ih =>
    intro p hp
    simp only [removeDuplicatesLoop] at hp
    split at hp
    · exact List.mem_cons_of_mem _ (ih _ p hp)
    · rcases List.mem_cons.mp hp with h | h
      · exact h ▸ List.mem_cons_self _ _
      · exact List.mem_cons_of_mem _ (ih _ p h)

/-- Nothing kept by the deduplication loop carries a key already seen. -/
theorem removeDuplicatesLoop_not_seen (xs : List Product) (seen : List String) :
    ∀ p ∈ removeDuplicatesLoop xs seen, p.ProductNumber ∉ seen := by
  induction xs generalizing seen with
  | nil => simp [removeDuplicatesLoop]
  | cons x rest ih =>
    intro p hp
    simp only [removeDuplicatesLoop] at hp
    split at hp
    · exact ih _ p hp
    · rcases List.mem_cons.mp hp with h | h
      · subst h; assumption
      · intro hmem
        exact ih _ p h (List.mem_cons_of_mem _ hmem)

/-- The keys kept by the deduplication loop are pairwise distinct. -/
theorem removeDuplicatesLoop_keys_nodup (xs : List Product) (seen : List String) :
    ((removeDuplicatesLoop xs seen).map (fun p => p.ProductNumber)).Nodup := by
  induction xs generalizing seen with
  | nil => simp [removeDuplicatesLoop]
  | cons x rest ih =>
    simp only [removeDuplicatesLoop]
    split
    · exact ih _
    · simp only [List.map_cons, List.nodup_cons]
      refine ⟨?_, ih _⟩
      intro hmem
      rcases List.mem_map.mp hmem with ⟨q, hq, hqe⟩
      exact removeDuplicatesLoop_not_seen rest (x.ProductNumber :: seen) q hq (by simp [hqe])

/-- Each product kept by the deduplication loop is the first element of the
input with its key. -/
theorem removeDuplicatesLoop_find (xs : List Product) (seen : List String) (p : Product)
    (hp : p ∈ removeDuplicatesLoop xs seen) :
    xs.find? (fun q => q.ProductNumber == p.ProductNumber) = some p := by
  induction xs generalizing seen with
  | nil => simp [removeDuplicatesLoop] at hp
  | cons x rest ih =>
    simp only [removeDuplicatesLoop] at hp
    split at hp
    · have hnot := removeDuplicatesLoop_not_seen rest seen p hp
      have hne : (x.ProductNumber == p.ProductNumber) = false := by
        refine beq_eq_false_iff_ne.mpr fun he => hnot ?_
        rename_i hseen
        exact he ▸ hseen
      simp only [List.find?, hne]
      exact ih _ hp
    · rcases List.mem_cons.mp hp with h | h
      · subst h
        simp [List.find?]
      · have hnot := removeDuplicatesLoop_not_seen rest (x.ProductNumber :: seen) p h
        have hne : (x.ProductNumber == p.ProductNumber) = false := by
          refine beq_eq_false_iff_ne.mpr fun he => hnot ?_
          exact he ▸ List.mem_cons_self _ _
        simp only [List.find?, hne]
        exact ih _ h

/-- Finding a product by a non-empty key is unaffected by first dropping the
empty-keyed products. -/
theorem find?_removeProductWithoutNumber (xs : List Product) (n : String) (hn : n ≠ "") :
    (removeProductWithoutNumber xs).find? (fun q => q.ProductNumber == n) =
      xs.find? (fun q => q.ProductNumber == n) := by
  induction xs with
  | nil => simp [removeProductWithoutNumber]
  | cons x rest ih =>
    by_cases hx : x.ProductNumber = ""
    · have hne : (x.ProductNumber == n) = false :=
        beq_eq_false_iff_ne.mpr (by simp [hx]; exact fun he => hn he.symm)
      simp only [removeProductWithoutNumber, List.filter_cons] at ih ⊢
      simp only [hx]
      simp only [List.find?, hne, decide_eq_true_eq]
      simpa [removeProductWithoutNumber] using ih
    · simp only [removeProductWithoutNumber, List.filter_cons] at ih ⊢
      have hdx : (decide ¬x.ProductNumber = "") = true := by simp [hx]
      simp only [hdx, if_pos]
      cases hbeq : (x.ProductNumber == n) with
      | true => simp [List.find?, hbeq]
      | false =>
        simp only [List.find?, hbeq]
        simpa [removeProductWithoutNumber] using ih

/-- Members of a screened list have non-empty keys. -/
theorem screenProducts_mem_ne (xs : List Product) (p : Product)
    (hp : p ∈ screenProducts xs) : p.ProductNumber ≠ "" := by
  have hmem : p ∈ removeProductWithoutNumber xs :=
    removeDuplicatesLoop_subset _ _ p hp
  have := List.mem_filter.mp hmem
  simpa using this.2

/-- Association stamping does not change the business keys. -/
theorem assoc_keys (l : List Product) (i j : Int) :
    (assocProductsWithSetAndProductLine l i j).map (fun p => p.ProductNumber) =
      l.map (fun p => p.ProductNumber) := by
  simp only [assocProductsWithSetAndProductLine, List.map_map]
  rfl

/-- A deduplication pass over a list whose keys are already pairwise
distinct and disjoint from `seen` keeps it unchanged. -/
theorem removeDuplicatesLoop_id (xs : List Product) (seen : List String)
    (hnd : (xs.map (fun p => p.ProductNumber)).Nodup)
    (hseen : ∀ p ∈ xs, p.ProductNumber ∉ seen) :
    removeDuplicatesLoop xs seen = xs := by
  induction xs generalizing seen with
  | nil => simp [removeDuplicatesLoop]
  | cons x rest ih =>
    simp only [removeDuplicatesLoop]
    rw [if_neg (hseen x (List.mem_cons_self _ _))]
    congr 1
    apply ih
    · exact (List.nodup_cons.mp (by simpa using hnd)).2
    · intro p hp hmem
      rcases List.mem_cons.mp hmem with he | hs
      · have hx : x.ProductNumber ∉ rest.map (fun p => p.ProductNumber) :=
          (List.nodup_cons.mp (by simpa using hnd)).1
        exact hx (he ▸ List.mem_map_of_mem _ hp)
      · exact hseen p (List.mem_cons_of_mem _ hp) hs

/-! ### Claim theorems C1, C2, C6, C7, C8 -/

/-- C1: the claim states that on a list with exactly one product carrying
the given key, `removeProductByProductNumber` returns the same list minus
that one product (length N−1, others unchanged, order preserved).  On the
two-product list `[prodA(007), prodB(008)]` with key `"007"` the code
instead returns the zero-value product followed by `prodB` — length 2, not
1 — because the Go body pre-sizes the result slice with `len−1` zero values
and then appends every kept product. -/
theorem c1_remove_by_number_eval :
    removeProductByProductNumber [prodA, prodB] "007" = some [defaultProduct, prodB] ∧
      removeProductByProductNumber [prodA, prodB] "007" ≠ some [prodB] := by
  constructor
  · decide
  · decide

/-- C2: the claim states that on the store's unique-violation detail string
`getDuplicateKey` returns normally with the business-key value `"007"`.  On
that exact string the code panics (modelled `none`): `FindStringSubmatch`
with pattern `\((.*?)\)` returns a 2-element slice and the body indexes
`rs[3]`. -/
theorem c2_getDuplicateKey_eval :
    getDuplicateKey
        "Key (product_number, rarity_name, set_id)=(007, Common, 3) already exists" = none ∧
      getDuplicateKey
        "Key (product_number, rarity_name, set_id)=(007, Common, 3) already exists" ≠
        some "007" := by
  constructor
  · decide
  · decide

/-- C6: every product screening outputs has a non-empty business key, no two
outputs share a key, and each output is the first occurrence of its key in
the input; consequently every job the data worker emits has non-empty,
pairwise-distinct business keys. -/
theorem c6_screening_invariants :
    (∀ xs : List Product,
      (∀ p ∈ screenProducts xs, p.ProductNumber ≠ "") ∧
      ((screenProducts xs).map (fun p => p.ProductNumber)).Nodup ∧
      (∀ p ∈ screenProducts xs,
        xs.find? (fun q => q.ProductNumber == p.ProductNumber) = some p)) ∧
    (∀ dc fetched job, processDataContext dc fetched = some job →
      (∀ p ∈ job.productList, p.ProductNumber ≠ "") ∧
      (job.productList.map (fun p => p.ProductNumber)).Nodup) := by
  have hscreen : ∀ xs : List Product,
      (∀ p ∈ screenProducts xs, p.ProductNumber ≠ "") ∧
      ((screenProducts xs).map (fun p => p.ProductNumber)).Nodup ∧
      (∀ p ∈ screenProducts xs,
        xs.find? (fun q => q.ProductNumber == p.ProductNumber) = some p) := by
    intro xs
    refine ⟨fun p hp => screenProducts_mem_ne xs p hp,
      removeDuplicatesLoop_keys_nodup _ _, fun p hp => ?_⟩
    rw [← find?_removeProductWithoutNumber xs _ (screenProducts_mem_ne xs p hp)]
    exact removeDuplicatesLoop_find (removeProductWithoutNumber xs) [] p hp
  refine ⟨hscreen, fun dc fetched job h => ?_⟩
  cases fetched with
  | nil => simp [processDataContext] at h
  | cons x rest =>
    have hjob : job.productList =
        assocProductsWithSetAndProductLine (screenProducts (x :: rest))
          (UpdateSearchResultsSize (UpdateSetCount dc
            ((screenProducts (x :: rest)).length : Int))
            ((screenProducts (x :: rest)).length : Int)).set.Id
          (UpdateSearchResultsSize (UpdateSetCount dc
            ((screenProducts (x :: rest)).length : Int))
            ((screenProducts (x :: rest)).length : Int)).productLine.Id := by
      simp only [processDataContext, NewJob, Option.some.injEq] at h
      exact (congrArg Job.productList h).symm
    constructor
    · intro p hp
      rw [hjob] at hp
      rcases List.mem_map.mp hp with ⟨q, hq, hqe⟩
      have hqn := screenProducts_mem_ne (x :: rest) q hq
      have : p.ProductNumber = q.ProductNumber := by rw [← hqe]
      rw [this]
      exact hqn
    · rw [hjob, assoc_keys]
      exact removeDuplicatesLoop_keys_nodup _ _

/-- C6 witness: the screening invariants instantiated at the Scenario A
list and its first kept product. -/
theorem c6_screening_invariants_witness :
    ({ ProductNumber := "007", ProductName := "P1" } : Product).ProductNumber ≠ "" ∧
      scenarioAProducts.find?
        (fun q => q.ProductNumber ==
          ({ ProductNumber := "007", ProductName := "P1" } : Product).ProductNumber) =
        some { ProductNumber := "007", ProductName := "P1" } := by
  have h := c6_screening_invariants.1 scenarioAProducts
  exact ⟨h.1 _ (by decide), h.2.2 _ (by decide)⟩

/-- C7: every job the data worker emits has `set.Count` equal to the length
of its (screened) product list. -/
theorem c7_set_count (dc : DataContext) (fetched : List Product) (job : Job)
    (h : processDataContext dc fetched = some job) :
    job.set.Count = (job.productList.length : Int) ∧
      job.productList.length = (screenProducts fetched).length := by
  cases fetched with
  | nil => simp [processDataContext] at h
  | cons x rest =>
    simp only [processDataContext, NewJob, Option.some.injEq] at h
    subst h
    constructor
    · simp [UpdateSetCount, UpdateSearchResultsSize, assocProductsWithSetAndProductLine]
    · simp [assocProductsWithSetAndProductLine]

/-- C7 witness: Scenario A — ten fetched products, two sharing key "007"
and one with an empty key, produce a job with 8 products and `Count = 8`. -/
theorem c7_set_count_witness :
    processDataContext scenarioADC scenarioAProducts = some scenarioAJob ∧
      scenarioAJob.set.Count = (scenarioAJob.productList.length : Int) ∧
      scenarioAJob.productList.length = 8 := by
  refine ⟨by decide, (c7_set_count scenarioADC scenarioAProducts scenarioAJob (by decide)).1,
    by decide⟩

/-- C8: screening is idempotent — a second screening pass removes nothing. -/
theorem c8_screen_idempotent (xs : List Product) :
    screenProducts (screenProducts xs) = screenProducts xs := by
  have h1 : removeProductWithoutNumber (screenProducts xs) = screenProducts xs := by
    apply List.filter_eq_self.mpr
    intro p hp
    simpa using screenProducts_mem_ne xs p hp
  show removeDuplicateProducts (removeProductWithoutNumber (screenProducts xs)) =
    screenProducts xs
  rw [h1]
  exact removeDuplicatesLoop_id _ _ (removeDuplicatesLoop_keys_nodup _ _) (by simp)

/-! ### Claim theorems C3 and C4 (status stage) -/

/-- C3 counterexample: on a failed unique-violation outcome whose detail
yields no extractable key (`getDuplicateKey` returns the empty string) the
status worker does not drop the job with a warning — it re-queues the job on
the job channel. -/
theorem c3_no_key_resubmits :
    getDuplicateKey "duplicate key value violates unique constraint" = some "" ∧
      handleStatus noKeyStatus = .resubmit noKeyStatus.job := by
  constructor
  · decide
  · decide

/-- C3 amended: when the unique-violation detail yields no key, the status
worker neither drops the job nor logs a warning; it applies the removal step
with the empty-string key — which prepends `len−1` zero-value products and
keeps every product with a non-empty key — and re-submits the result to the
job channel. -/
theorem c3_no_key_amended (s : JobStatus) (detail : String)
    (hfail : s.success = false)
    (herr : s.err = some (.pgError UniqueViolationError detail))
    (hnokey : hasParenGroup detail.data = false)
    (hne : s.job.productList ≠ []) :
    handleStatus s = .resubmit { s.job with productList :=
      (List.replicate (s.job.productList.length - 1) defaultProduct ++
        s.job.productList.filter (fun p => p.ProductNumber ≠ "")) } := by
  cases hl : s.job.productList with
  | nil => exact absurd hl hne
  | cons x rest =>
    simp [handleStatus, hfail, herr, getDuplicateKey, hnokey,
      removeProductByProductNumber, hl]

/-- C3 amended, witness at the concrete no-key outcome. -/
theorem c3_no_key_amended_witness :
    handleStatus noKeyStatus = .resubmit { noKeyStatus.job with productList :=
      (List.replicate (noKeyStatus.job.productList.length - 1) defaultProduct ++
        noKeyStatus.job.productList.filter (fun p => p.ProductNumber ≠ "")) } :=
  c3_no_key_amended noKeyStatus "duplicate key value violates unique constraint"
    rfl rfl (by decide) (by decide)

/-- C4 counterexample: a failed outcome whose error is not a Postgres error
produces no action at all — nothing is logged and nothing is re-submitted,
while the claim requires a logged line with set, product and error. -/
theorem c4_nonpg_no_log : handleStatus nonPgStatus = .noAction := by decide

/-- C4 amended: a failed outcome carrying a Postgres error with a
non-unique-violation code and a non-empty product list is logged with the
code, the first product's set name and the error, and is not re-submitted;
a failed outcome whose error is not a Postgres error is ignored entirely. -/
theorem c4_unhandled_amended :
    (∀ (s : JobStatus) (code detail : String) (p : Product) (rest : List Product),
      s.success = false →
      s.err = some (.pgError code detail) →
      code ≠ UniqueViolationError →
      s.job.productList = p :: rest →
      handleStatus s = .logUnhandled code p.SetName s.err) ∧
    (∀ (s : JobStatus) (msg : String),
      s.success = false → s.err = some (.other msg) → handleStatus s = .noAction) := by
  constructor
  · intro s code detail p rest hfail herr hcode hl
    simp [handleStatus, hfail, herr, hcode, hl]
  · intro s msg hfail herr
    simp [handleStatus, hfail, herr]

/-- C4 amended, witness at concrete non-unique-Postgres and non-Postgres
outcomes. -/
theorem c4_unhandled_amended_witness :
    handleStatus pgOtherStatus =
      .logUnhandled "42P01" "SetA" pgOtherStatus.err ∧
      handleStatus nonPgStatus = .noAction :=
  ⟨c4_unhandled_amended.1 pgOtherStatus "42P01" "relation does not exist"
      { ProductNumber := "007", SetName := "SetA" } [] rfl rfl (by decide) rfl,
    c4_unhandled_amended.2 nonPgStatus "connection refused" rfl rfl⟩

/-! ### Image-stage lemmas and claim theorems C9, C10 -/

/-- Go map insertion preserves a property of the entries when the inserted
pair satisfies it. -/
theorem insertAssoc_forall {β : Type} (P : String × β → Prop) (m : List (String × β))
    (k : String) (v : β) (hm : ∀ w ∈ m, P w) (hkv : P (k, v)) :
    ∀ w ∈ insertAssoc m k v, P w := by
  intro w hw
  simp only [insertAssoc] at hw
  split at hw
  · rcases List.mem_map.mp hw with ⟨kv, hkvm, hke⟩
    by_cases h : kv.1 = k
    · rw [if_pos h] at hke
      exact hke ▸ hkv
    · rw [if_neg h] at hke
      exact hke ▸ hm kv hkvm
  · rcases List.mem_append.mp hw with h | h
    · exact hm w h
    · have : w = (k, v) := List.mem_singleton.mp h
      exact this ▸ hkv

/-- After inserting under key `k`, the map has an entry with key `k`. -/
theorem insertAssoc_key_mem {β : Type} (m : List (String × β)) (k : String) (v : β) :
    ∃ u, (k, u) ∈ insertAssoc m k v := by
  simp only [insertAssoc]
  split
  · rename_i hany
    rcases List.any_eq_true.mp hany with ⟨kv, hkv, hk⟩
    refine ⟨v, List.mem_map.mpr ⟨kv, hkv, ?_⟩⟩
    show (if kv.1 = k then (k, v) else kv) = (k, v)
    rw [if_pos (of_decide_eq_true hk)]
  · exact ⟨v, List.mem_append_right _ (List.mem_singleton.mpr rfl)⟩

/-- Insertion never removes a key from the map. -/
theorem insertAssoc_key_mono {β : Type} (m : List (String × β)) (k0 k : String) (v0 : β)
    (h : ∃ u, (k, u) ∈ m) : ∃ u, (k, u) ∈ insertAssoc m k0 v0 := by
  by_cases hk : k = k0
  · subst hk
    exact insertAssoc_key_mem m k v0
  · rcases h with ⟨u, hu⟩
    simp only [insertAssoc]
    split
    · refine ⟨u, List.mem_map.mpr ⟨(k, u), hu, ?_⟩⟩
      show (if (k, u).1 = k0 then (k0, v0) else (k, u)) = (k, u)
      rw [if_neg hk]
    · exact ⟨u, List.mem_append_left _ hu⟩

/-- Every entry produced by the image-collection loop either was in the
accumulator or has the shape of a freshly derived file. -/
theorem collectImageFiles_forall {β : Type} (P : String × β → Prop) (dir suffix : String)
    (store : List Product) (fetch : Int → Option β) :
    ∀ (rest : List Product) (acc : List (String × β)),
      (∀ w ∈ acc, P w) →
      (∀ p ∈ rest, ∀ d, fetch p.ProductId = some d →
        P (mkImageFileName dir (getProductIdByName store p.ProductName) suffix, d)) →
      ∀ w ∈ collectImageFiles dir suffix store fetch rest acc, P w := by
  intro rest
  induction rest with
  | nil =>
    intro acc hacc _ w hw
    exact hacc w hw
  | cons p ps ih =>
    intro acc hacc hrest w hw
    simp only [collectImageFiles] at hw
    cases hfp : fetch p.ProductId with
    | none =>
      rw [hfp] at hw
      exact ih acc hacc (fun q hq => hrest q (List.mem_cons_of_mem _ hq)) w hw
    | some d =>
      rw [hfp] at hw
      exact ih _
        (insertAssoc_forall P acc _ _ hacc (hrest p (List.mem_cons_self _ _) d hfp))
        (fun q hq => hrest q (List.mem_cons_of_mem _ hq)) w hw

/-- The image-collection loop never removes a key present in the
accumulator. -/
theorem collectImageFiles_key_mono {β : Type} (dir suffix : String) (store : List Product)
    (fetch : Int → Option β) (k : String) :
    ∀ (rest : List Product) (acc : List (String × β)),
      (∃ u, (k, u) ∈ acc) →
      ∃ u, (k, u) ∈ collectImageFiles dir suffix store fetch rest acc := by
  intro rest
  induction rest with
  | nil =>
    intro acc h
    exact h
  | cons p ps ih =>
    intro acc h
    simp only [collectImageFiles]
    cases hfp : fetch p.ProductId with
    | none => exact ih acc h
    | some d => exact ih _ (insertAssoc_key_mono acc _ k d h)

/-- Every product whose image fetch succeeds ends up with an entry at its
derived filename. -/
theorem collectImageFiles_covers {β : Type} (dir suffix : String) (store : List Product)
    (fetch : Int → Option β) :
    ∀ (rest : List Product) (acc : List (String × β)) (p : Product),
      p ∈ rest → ∀ d, fetch p.ProductId = some d →
      ∃ u, (mkImageFileName dir (getProductIdByName store p.ProductName) suffix, u) ∈
        collectImageFiles dir suffix store fetch rest acc := by
  intro rest
  induction rest with
  | nil =>
    intro acc p hp
    exact absurd hp (List.not_mem_nil p)
  | cons q qs ih =>
    intro acc p hp d hd
    rcases List.mem_cons.mp hp with rfl | hps
    · simp only [collectImageFiles, hd]
      exact collectImageFiles_key_mono dir suffix store fetch _ qs _
        (insertAssoc_key_mem acc _ d)
    · simp only [collectImageFiles]
      cases hfq : fetch q.ProductId with
      | none => exact ih acc p hps d hd
      | some d0 => exact ih _ p hps d hd

/-- C9 counterexample: the image stage receives products A (store id 5) and
B (no store row); the claim says B's image is skipped.  The code writes B's
image too, under store id 0. -/
theorem c9_unmatched_written :
    processImageBatch "dir/" "200w.jpg" [imgProdA, imgProdB] (some imgStoreRows) idFetch =
      some [("dir/5_in_200w.jpg", 10), ("dir/0_in_200w.jpg", 11)] ∧
      processImageBatch "dir/" "200w.jpg" [imgProdA, imgProdB] (some imgStoreRows) idFetch ≠
        some [("dir/5_in_200w.jpg", 10)] := by
  constructor
  · decide
  · decide

/-- C9 amended: every file the image worker writes has a name of the form
`{dir}{storeId}_in_{suffix}` with `storeId` resolved by product name — `0`
when the store has no matching row, so an unmatched product is written under
id 0 rather than skipped — and every product whose image fetch succeeds has
an entry at its derived filename. -/
theorem c9_filenames_amended {β : Type} (dir suffix : String)
    (prodList storeProducts : List Product) (fetchImage : Int → Option β)
    (writes : List (String × β))
    (h : processImageBatch dir suffix prodList (some storeProducts) fetchImage = some writes) :
    (∀ w ∈ writes, ∃ p ∈ prodList, ∃ d, fetchImage p.ProductId = some d ∧
      w = (mkImageFileName dir (getProductIdByName storeProducts p.ProductName) suffix, d)) ∧
    (∀ p ∈ prodList, ∀ d, fetchImage p.ProductId = some d →
      ∃ u, (mkImageFileName dir (getProductIdByName storeProducts p.ProductName) suffix, u) ∈
        writes) := by
  cases prodList with
  | nil => simp [processImageBatch] at h
  | cons p ps =>
    simp only [processImageBatch, Option.some.injEq] at h
    subst h
    constructor
    · exact collectImageFiles_forall _ dir suffix storeProducts fetchImage (p :: ps) []
        (by simp) (fun q hq d hd => ⟨q, hq, d, hd, rfl⟩)
    · intro q hq d hd
      exact collectImageFiles_covers dir suffix storeProducts fetchImage (p :: ps) [] q hq d hd

/-- C9 amended, witness: the unmatched product B has a written entry at its
id-0 filename in the concrete batch. -/
theorem c9_filenames_amended_witness :
    ∃ u, (mkImageFileName "dir/" (getProductIdByName imgStoreRows imgProdB.ProductName)
        "200w.jpg", u) ∈
      [("dir/5_in_200w.jpg", (10 : Int)), ("dir/0_in_200w.jpg", 11)] :=
  (c9_filenames_amended "dir/" "200w.jpg" [imgProdA, imgProdB] imgStoreRows idFetch
      [("dir/5_in_200w.jpg", 10), ("dir/0_in_200w.jpg", 11)] (by decide)).2
    imgProdB (by decide) 11 (by decide)

/-- C10 counterexample: a set whose raw fetch is non-empty but entirely
screened out still yields a job — with an empty product list — and on that
job the image worker's `prodList[0]` access and the status worker's
unhandled-failure `productList[0]` access are out of bounds (panic). -/
theorem c10_empty_job_panics :
    processDataContext emptyListDC allScreenedFetched = some emptyListJob ∧
      processImageBatch "dir/" "200w.jpg" emptyListJob.productList (some []) idFetch = none ∧
      handleStatus emptyListFailStatus = .panic := by
  refine ⟨by decide, by decide, by decide⟩

/-- C10 amended: the element-0 accesses are in bounds exactly when the
product list is non-empty — a non-empty batch never panics in the image
worker, and a failed outcome with a non-unique Postgres error and a
non-empty product list never panics in the status worker; the Data Stage
does, however, emit empty-list jobs (see the counterexample). -/
theorem c10_nonempty_no_panic :
    (∀ (β : Type) (dir suffix : String) (prodList : List Product)
      (storeRes : Option (List Product)) (fetchImage : Int → Option β),
      prodList ≠ [] → processImageBatch dir suffix prodList storeRes fetchImage ≠ none) ∧
    (∀ (s : JobStatus) (code detail : String),
      s.success = false → s.err = some (.pgError code detail) →
      code ≠ UniqueViolationError → s.job.productList ≠ [] →
      handleStatus s ≠ .panic) := by
  constructor
  · intro β dir suffix prodList storeRes fetchImage hne
    cases prodList with
    | nil => exact absurd rfl hne
    | cons p ps => cases storeRes <;> simp [processImageBatch]
  · intro s code detail hfail herr hcode hne
    cases hl : s.job.productList with
    | nil => exact absurd hl hne
    | cons p ps => simp [handleStatus, hfail, herr, hcode, hl]

/-! ### Claim C5: shutdown safety of the worker pool -/

/-- Summing a mapped weight over a list with one position overwritten. -/
theorem map_sum_set {α : Type} (f : α → Nat) (l : List α) (i : Nat) (a b : α)
    (h : l[i]? = some a) :
    ((l.set i b).map f).sum + f a = (l.map f).sum + f b := by
  induction l generalizing i with
  | nil => simp at h
  | cons x xs ih =>
    cases i with
    | zero =>
      simp only [List.getElem?_cons_zero, Option.some.injEq] at h
      subst h
      simp [List.set]
      omega
    | succ i =>
      simp only [List.getElem?_cons_succ] at h
      simp only [List.set, List.map_cons, List.sum_cons]
      have := ih i h
      omega

/-- Overwriting a position keeps a list non-empty. -/
theorem set_ne_nil {α : Type} (l : List α) (i : Nat) (b : α) (h : l ≠ []) :
    l.set i b ≠ [] := by
  intro he
  apply h
  have hlen := congrArg List.length he
  simp only [List.length_set] at hlen
  exact List.length_eq_zero.mp hlen

/-- A data worker's post-receive state is never `done`. -/
theorem dataStepOf_ne_done (env : Env) (dc : DataContext) :
    dataStepOf env dc ≠ DWState.done := by
  unfold dataStepOf
  cases processDataContext dc (env.fetchRes dc) <;> simp

/-- The data worker's post-receive weight is at most that of a held job. -/
theorem dataStepOf_weight (env : Env) (dc : DataContext) :
    dwWeight (dataStepOf env dc) ≤ 8 := by
  unfold dataStepOf
  cases processDataContext dc (env.fetchRes dc) <;> simp [dwWeight]

/-- A successful outcome is forwarded to the image stage. -/
theorem handleStatus_success (st : JobStatus) (h : st.success = true) :
    handleStatus st = .emitImages st.job.productList := by
  simp [handleStatus, h]

/-- On a successful outcome the status worker ends up holding the product
list for the image channel. -/
theorem statusStepOf_success (st : JobStatus) (h : st.success = true) :
    statusStepOf st = .holdImgs st.job.productList := by
  simp [statusStepOf, handleStatus_success st h]

/-- The status worker's post-receive weight is at most that of a held
message. -/
theorem statusStepOf_weight (st : JobStatus) : swWeight (statusStepOf st) ≤ 4 := by
  unfold statusStepOf
  cases handleStatus st <;> simp [swWeight]

/-- The initial state satisfies the pipeline invariant. -/
theorem inv_init (n : Nat) (seeds : List DataContext) (hn : 1 ≤ n) :
    Inv (initState n seeds) := by
  unfold Inv initState rank
  refine ⟨by simp, by simp, by simp, by simp, ?_, ?_, ?_, ?_, ?_, ?_, ?_, ?_,
    by simp, ?_, ?_, ?_, rfl⟩
  · intro h
    simp at h
  · intro h
    simp at h
  · intro h
    simp at h
  · intro h
    simp at h
  · rintro ⟨w, hw, he⟩
    simp only [List.eq_of_mem_replicate hw] at he
    cases he
  · rintro ⟨w, hw, he⟩
    simp only [List.eq_of_mem_replicate hw] at he
    cases he
  · rintro ⟨w, hw, he⟩
    simp only [List.eq_of_mem_replicate hw] at he
    cases he
  · rintro ⟨w, hw, he⟩
    simp only [List.eq_of_mem_replicate hw] at he
    cases he
  · intro w hw st he
    rw [List.eq_of_mem_replicate hw] at he
    cases he
  · intro w hw
    rw [List.eq_of_mem_replicate hw]
    exact ⟨fun j => by simp, by simp⟩
  · refine ⟨?_, ?_, ?_, ?_⟩ <;> simp <;> omega

/-- The pipeline invariant is preserved by every step when every
persistence attempt succeeds. -/
theorem inv_step (env : Env) (hsucc : ∀ j, env.storeRes j = none)
    (s s' : PState) (hinv : Inv s) (hstep : Step env s s') : Inv s' := by
  obtain ⟨hA1, hA2, hA3, hA4, hB1, hB2, hB3, hB4, hG1, hG2, hG3, hG4, hE, hF, hD,
    hNE, hP⟩ := hinv
  cases hstep with
  | mainSend dc pending hpc hroom =>
    rw [hpc] at hA1 hA2 hA3 hA4
    refine ⟨?_, ?_, ?_, ?_, ?_, ?_, ?_, ?_, hG1, hG2, hG3, hG4, hE, hF, hD, hNE, hP⟩
    · simpa [rank] using hA1
    · simpa [rank] using hA2
    · simpa [rank] using hA3
    · simpa [rank] using hA4
    · intro habs; simp [rank] at habs
    · intro habs; simp [rank] at habs
    · intro habs; simp [rank] at habs
    · intro habs; simp [rank] at habs
  | mainCloseDc hpc =>
    rw [hpc] at hA2 hA3 hA4
    simp only [rank] at hA2 hA3 hA4
    refine ⟨by simp [rank], ?_, ?_, ?_, ?_, ?_, ?_, ?_, fun _ => rfl, hG2, hG3, hG4,
      hE, hF, hD, hNE, hP⟩
    · simp only [rank]
      constructor
      · intro h; exact absurd (hA2.mp h) (by omega)
      · intro h; omega
    · simp only [rank]
      constructor
      · intro h; exact absurd (hA3.mp h) (by omega)
      · intro h; omega
    · simp only [rank]
      constructor
      · intro h; exact absurd (hA4.mp h) (by omega)
      · intro h; omega
    · intro habs; simp [rank] at habs
    · intro habs; simp [rank] at habs
    · intro habs; simp [rank] at habs
    · intro habs; simp [rank] at habs
  | mainCloseJobs hpc hdone =>
    rw [hpc] at hA1 hA3 hA4
    simp only [rank] at hA1 hA3 hA4
    refine ⟨?_, by simp [rank], ?_, ?_, fun _ => hdone, ?_, ?_, ?_, hG1, fun _ => rfl,
      hG3, hG4, hE, hF, hD, hNE, hP⟩
    · simp only [rank]
      constructor
      · intro _; omega
      · intro _; exact hA1.mpr (by omega)
    · simp only [rank]
      constructor
      · intro h; exact absurd (hA3.mp h) (by omega)
      · intro h; omega
    · simp only [rank]
      constructor
      · intro h; exact absurd (hA4.mp h) (by omega)
      · intro h; omega
    · intro habs; simp [rank] at habs
    · intro habs; simp [rank] at habs
    · intro habs; simp [rank] at habs
  | mainCloseStat hpc hdone =>
    rw [hpc] at hA1 hA2 hA4 hB1
    simp only [rank] at hA1 hA2 hA4 hB1
    refine ⟨?_, ?_, by simp [rank], ?_, fun _ => hB1 (by omega), fun _ => hdone, ?_, ?_,
      hG1, hG2, fun _ => rfl, hG4, hE, hF, hD, hNE, hP⟩
    · simp only [rank]
      exact ⟨fun _ => by omega, fun _ => hA1.mpr (by omega)⟩
    · simp only [rank]
      exact ⟨fun _ => by omega, fun _ => hA2.mpr (by omega)⟩
    · simp only [rank]
      exact ⟨fun h => absurd (hA4.mp h) (by omega), fun h => absurd h (by omega)⟩
    · intro habs; simp [rank] at habs
    · intro habs; simp [rank] at habs
  | mainCloseImg hpc hdone =>
    rw [hpc] at hA1 hA2 hA3 hB1 hB2
    simp only [rank] at hA1 hA2 hA3 hB1 hB2
    refine ⟨?_, ?_, ?_, by simp [rank], fun _ => hB1 (by omega), fun _ => hB2 (by omega),
      fun _ => hdone, ?_, hG1, hG2, hG3, fun _ => rfl, hE, hF, hD, hNE, hP⟩
    · simp only [rank]
      exact ⟨fun _ => by omega, fun _ => hA1.mpr (by omega)⟩
    · simp only [rank]
      exact ⟨fun _ => by omega, fun _ => hA2.mpr (by omega)⟩
    · simp only [rank]
      exact ⟨fun _ => by omega, fun _ => hA3.mpr (by omega)⟩
    · intro habs; simp [rank] at habs
  | mainFinish hpc hdone =>
    rw [hpc] at hA1 hA2 hA3 hA4 hB1 hB2 hB3
    simp only [rank] at hA1 hA2 hA3 hA4 hB1 hB2 hB3
    refine ⟨?_, ?_, ?_, ?_, fun _ => hB1 (by omega), fun _ => hB2 (by omega),
      fun _ => hB3 (by omega), fun _ => hdone, hG1, hG2, hG3, hG4, hE, hF, hD, hNE, hP⟩
    · simp only [rank]
      exact ⟨fun _ => by omega, fun _ => hA1.mpr (by omega)⟩
    · simp only [rank]
      exact ⟨fun _ => by omega, fun _ => hA2.mpr (by omega)⟩
    · simp only [rank]
      exact ⟨fun _ => by omega, fun _ => hA3.mpr (by omega)⟩
    · simp only [rank]
      exact ⟨fun _ => by omega, fun _ => hA4.mpr (by omega)⟩
  | dataRecv i dc rest hw hbuf =>
    refine ⟨hA1, hA2, hA3, hA4, ?_, hB2, hB3, hB4, ?_, hG2, hG3, hG4, hE, hF, hD,
      ⟨set_ne_nil _ _ _ hNE.1, hNE.2.1, hNE.2.2.1, hNE.2.2.2⟩, hP⟩
    · intro habs w hwm
      exact absurd (hB1 habs _ (List.getElem?_mem hw)) (by simp)
    · rintro ⟨w, hwm, he⟩
      rcases List.mem_or_eq_of_mem_set hwm with hold | heq
      · exact hG1 ⟨w, hold, he⟩
      · exact absurd (heq.symm.trans he) (dataStepOf_ne_done env dc)
  | dataExit i hw hbuf hclosed =>
    refine ⟨hA1, hA2, hA3, hA4, ?_, hB2, hB3, hB4, fun _ => hclosed, hG2, hG3, hG4,
      hE, hF, hD, ⟨set_ne_nil _ _ _ hNE.1, hNE.2.1, hNE.2.2.1, hNE.2.2.2⟩, hP⟩
    intro habs w hwm
    rcases List.mem_or_eq_of_mem_set hwm with hold | heq
    · exact hB1 habs _ hold
    · exact heq
  | dataSend i j hw hopen hroom =>
    refine ⟨hA1, hA2, hA3, hA4, ?_, hB2, hB3, hB4, ?_, hG2, hG3, hG4, hE, hF, hD,
      ⟨set_ne_nil _ _ _ hNE.1, hNE.2.1, hNE.2.2.1, hNE.2.2.2⟩, hP⟩
    · intro habs w hwm
      exact absurd (hB1 habs _ (List.getElem?_mem hw)) (by simp)
    · rintro ⟨w, hwm, he⟩
      rcases List.mem_or_eq_of_mem_set hwm with hold | heq
      · exact hG1 ⟨w, hold, he⟩
      · rw [heq] at he
        exact absurd he (by simp)
  | dataSendClosed i j hw hclosed =>
    exact absurd (hB1 (hA2.mp hclosed) _ (List.getElem?_mem hw)) (by simp)
  | jobRecv i j rest hw hbuf =>
    refine ⟨hA1, hA2, hA3, hA4, hB1, ?_, hB3, hB4, hG1, ?_, hG3, hG4, hE, ?_, hD,
      ⟨hNE.1, set_ne_nil _ _ _ hNE.2.1, hNE.2.2.1, hNE.2.2.2⟩, hP⟩
    · intro habs w hwm
      exact absurd (hB2 habs _ (List.getElem?_mem hw)) (by simp)
    · rintro ⟨w, hwm, he⟩
      rcases List.mem_or_eq_of_mem_set hwm with hold | heq
      · exact hG2 ⟨w, hold, he⟩
      · rw [heq] at he
        exact absurd he (by simp)
    · intro w hwm st he
      rcases List.mem_or_eq_of_mem_set hwm with hold | heq
      · exact hF w hold st he
      · rw [heq] at he
        injection he with he
        rw [← he]
        simp [mkJobStatus, hsucc j]
  | jobExit i hw hbuf hclosed =>
    refine ⟨hA1, hA2, hA3, hA4, hB1, ?_, hB3, hB4, hG1, fun _ => hclosed, hG3, hG4,
      hE, ?_, hD, ⟨hNE.1, set_ne_nil _ _ _ hNE.2.1, hNE.2.2.1, hNE.2.2.2⟩, hP⟩
    · intro habs w hwm
      rcases List.mem_or_eq_of_mem_set hwm with hold | heq
      · exact hB2 habs _ hold
      · exact heq
    · intro w hwm st he
      rcases List.mem_or_eq_of_mem_set hwm with hold | heq
      · exact hF w hold st he
      · rw [heq] at he
        exact absurd he (by simp)
  | jobSend i st hw hopen hroom =>
    refine ⟨hA1, hA2, hA3, hA4, hB1, ?_, hB3, hB4, hG1, ?_, hG3, hG4, ?_, ?_, hD,
      ⟨hNE.1, set_ne_nil _ _ _ hNE.2.1, hNE.2.2.1, hNE.2.2.2⟩, hP⟩
    · intro habs w hwm
      exact absurd (hB2 habs _ (List.getElem?_mem hw)) (by simp)
    · rintro ⟨w, hwm, he⟩
      rcases List.mem_or_eq_of_mem_set hwm with hold | heq
      · exact hG2 ⟨w, hold, he⟩
      · rw [heq] at he
        exact absurd he (by simp)
    · intro st' hst'
      rcases List.mem_append.mp hst' with hold | hnew
      · exact hE st' hold
      · rw [List.mem_singleton.mp hnew]
        exact hF _ (List.getElem?_mem hw) st rfl
    · intro w hwm st' he
      rcases List.mem_or_eq_of_mem_set hwm with hold | heq
      · exact hF w hold st' he
      · rw [heq] at he
        exact absurd he (by simp)
  | jobSendClosed i st hw hclosed =>
    exact absurd (hB2 (hA3.mp hclosed) _ (List.getElem?_mem hw)) (by simp)
  | statusRecv i st rest hw hbuf =>
    have hsuccst : st.success = true := hE st (by rw [hbuf]; exact List.mem_cons_self _ _)
    refine ⟨hA1, hA2, hA3, hA4, hB1, hB2, ?_, hB4, hG1, hG2, ?_, hG4, ?_, hF, ?_,
      ⟨hNE.1, hNE.2.1, set_ne_nil _ _ _ hNE.2.2.1, hNE.2.2.2⟩, hP⟩
    · intro habs w hwm
      exact absurd (hB3 habs _ (List.getElem?_mem hw)) (by simp)
    · rintro ⟨w, hwm, he⟩
      rcases List.mem_or_eq_of_mem_set hwm with hold | heq
      · exact hG3 ⟨w, hold, he⟩
      · rw [statusStepOf_success st hsuccst] at heq
        rw [heq] at he
        exact absurd he (by simp)
    · intro st' hst'
      refine hE st' ?_
      rw [hbuf]
      exact List.mem_cons_of_mem _ hst'
    · intro w hwm
      rcases List.mem_or_eq_of_mem_set hwm with hold | heq
      · exact hD w hold
      · rw [statusStepOf_success st hsuccst] at heq
        rw [heq]
        exact ⟨fun j => by simp, by simp⟩
  | statusExit i hw hbuf hclosed =>
    refine ⟨hA1, hA2, hA3, hA4, hB1, hB2, ?_, hB4, hG1, hG2, fun _ => hclosed, hG4,
      hE, hF, ?_, ⟨hNE.1, hNE.2.1, set_ne_nil _ _ _ hNE.2.2.1, hNE.2.2.2⟩, hP⟩
    · intro habs w hwm
      rcases List.mem_or_eq_of_mem_set hwm with hold | heq
      · exact hB3 habs _ hold
      · exact heq
    · intro w hwm
      rcases List.mem_or_eq_of_mem_set hwm with hold | heq
      · exact hD w hold
      · rw [heq]
        exact ⟨fun j => by simp, by simp⟩
  | statusSendImg i ps hw hopen hroom =>
    refine ⟨hA1, hA2, hA3, hA4, hB1, hB2, ?_, hB4, hG1, hG2, ?_, hG4, hE, hF, ?_,
      ⟨hNE.1, hNE.2.1, set_ne_nil _ _ _ hNE.2.2.1, hNE.2.2.2⟩, hP⟩
    · intro habs w hwm
      exact absurd (hB3 habs _ (List.getElem?_mem hw)) (by simp)
    · rintro ⟨w, hwm, he⟩
      rcases List.mem_or_eq_of_mem_set hwm with hold | heq
      · exact hG3 ⟨w, hold, he⟩
      · rw [heq] at he
        exact absurd he (by simp)
    · intro w hwm
      rcases List.mem_or_eq_of_mem_set hwm with hold | heq
      · exact hD w hold
      · rw [heq]
        exact ⟨fun j => by simp, by simp⟩
  | statusSendImgClosed i ps hw hclosed =>
    exact absurd (hB3 (hA4.mp hclosed) _ (List.getElem?_mem hw)) (by simp)
  | statusResubmit i j hw hopen hroom =>
    exact absurd rfl ((hD _ (List.getElem?_mem hw)).1 j)
  | statusResubmitClosed i j hw hclosed =>
    exact absurd rfl ((hD _ (List.getElem?_mem hw)).1 j)
  | imgRecv i ps rest hw hbuf =>
    exact ⟨hA1, hA2, hA3, hA4, hB1, hB2, hB3, hB4, hG1, hG2, hG3, hG4, hE, hF, hD,
      hNE, hP⟩
  | imgExit i hw hbuf hclosed =>
    refine ⟨hA1, hA2, hA3, hA4, hB1, hB2, hB3, ?_, hG1, hG2, hG3, fun _ => hclosed,
      hE, hF, hD, ⟨hNE.1, hNE.2.1, hNE.2.2.1, set_ne_nil _ _ _ hNE.2.2.2⟩, hP⟩
    intro habs w hwm
    rcases List.mem_or_eq_of_mem_set hwm with hold | heq
    · exact hB4 habs _ hold
    · exact heq

/-- Every invariant-respecting step strictly decreases the termination
measure, so no execution of the success-only pipeline runs forever. -/
theorem pipeMeasure_step (env : Env) (s s' : PState) (hinv : Inv s)
    (hstep : Step env s s') : pipeMeasure s' < pipeMeasure s := by
  obtain ⟨hA1, hA2, hA3, hA4, hB1, hB2, hB3, hB4, hG1, hG2, hG3, hG4, hE, hF, hD,
    hNE, hP⟩ := hinv
  cases hstep with
  | mainSend dc pending hpc hroom =>
    simp only [pipeMeasure, hpc, mainWeight, List.length_append, List.length_cons,
      List.length_nil]
    omega
  | mainCloseDc hpc =>
    simp only [pipeMeasure, hpc, mainWeight]
    omega
  | mainCloseJobs hpc hdone =>
    simp only [pipeMeasure, hpc, mainWeight]
    omega
  | mainCloseStat hpc hdone =>
    simp only [pipeMeasure, hpc, mainWeight]
    omega
  | mainCloseImg hpc hdone =>
    simp only [pipeMeasure, hpc, mainWeight]
    omega
  | mainFinish hpc hdone =>
    simp only [pipeMeasure, hpc, mainWeight]
    omega
  | dataRecv i dc rest hw hbuf =>
    have hsum := map_sum_set dwWeight s.dataWs i _ (dataStepOf env dc) hw
    have hwt := dataStepOf_weight env dc
    rw [show dwWeight DWState.idle = 1 from rfl] at hsum
    simp only [pipeMeasure, hbuf, List.length_cons]
    omega
  | dataExit i hw hbuf hclosed =>
    have hsum := map_sum_set dwWeight s.dataWs i _ DWState.done hw
    simp only [dwWeight] at hsum
    simp only [pipeMeasure]
    omega
  | dataSend i j hw hopen hroom =>
    have hsum := map_sum_set dwWeight s.dataWs i _ DWState.idle hw
    simp only [dwWeight] at hsum
    simp only [pipeMeasure, List.length_append, List.length_cons, List.length_nil]
    omega
  | dataSendClosed i j hw hclosed =>
    exact absurd (hB1 (hA2.mp hclosed) _ (List.getElem?_mem hw)) (by simp)
  | jobRecv i j rest hw hbuf =>
    have hsum := map_sum_set jwWeight s.jobWs i _ (JWState.holding (mkJobStatus i j (env.storeRes j))) hw
    simp only [jwWeight] at hsum
    simp only [pipeMeasure, hbuf, List.length_cons]
    omega
  | jobExit i hw hbuf hclosed =>
    have hsum := map_sum_set jwWeight s.jobWs i _ JWState.done hw
    simp only [jwWeight] at hsum
    simp only [pipeMeasure]
    omega
  | jobSend i st hw hopen hroom =>
    have hsum := map_sum_set jwWeight s.jobWs i _ JWState.idle hw
    simp only [jwWeight] at hsum
    simp only [pipeMeasure, List.length_append, List.length_cons, List.length_nil]
    omega
  | jobSendClosed i st hw hclosed =>
    exact absurd (hB2 (hA3.mp hclosed) _ (List.getElem?_mem hw)) (by simp)
  | statusRecv i st rest hw hbuf =>
    have hsum := map_sum_set swWeight s.statusWs i _ (statusStepOf st) hw
    have hwt := statusStepOf_weight st
    rw [show swWeight SWState.idle = 1 from rfl] at hsum
    simp only [pipeMeasure, hbuf, List.length_cons]
    omega
  | statusExit i hw hbuf hclosed =>
    have hsum := map_sum_set swWeight s.statusWs i _ SWState.done hw
    simp only [swWeight] at hsum
    simp only [pipeMeasure]
    omega
  | statusSendImg i ps hw hopen hroom =>
    have hsum := map_sum_set swWeight s.statusWs i _ SWState.idle hw
    simp only [swWeight] at hsum
    simp only [pipeMeasure, List.length_append, List.length_cons, List.length_nil]
    omega
  | statusSendImgClosed i ps hw hclosed =>
    exact absurd (hB3 (hA4.mp hclosed) _ (List.getElem?_mem hw)) (by simp)
  | statusResubmit i j hw hopen hroom =>
    exact absurd rfl ((hD _ (List.getElem?_mem hw)).1 j)
  | statusResubmitClosed i j hw hclosed =>
    exact absurd rfl ((hD _ (List.getElem?_mem hw)).1 j)
  | imgRecv i ps rest hw hbuf =>
    simp only [pipeMeasure, hbuf, List.length_cons]
    omega
  | imgExit i hw hbuf hclosed =>
    have hsum := map_sum_set iwWeight s.imgWs i _ IWState.done hw
    simp only [iwWeight] at hsum
    simp only [pipeMeasure]
    omega

/-- If the image channel is open and non-empty, some step is enabled. -/
theorem imgBuf_step (env : Env) (s : PState) (hinv : Inv s)
    (hbuf : s.imgChan.buf ≠ []) (hopen : s.imgChan.closed = false) :
    ∃ s', Step env s s' := by
  obtain ⟨-, -, -, -, -, -, -, -, -, -, -, hG4, -, -, -, hNE, -⟩ := hinv
  have hnotall : ∃ w ∈ s.imgWs, w ≠ IWState.done := by
    by_contra hall
    push_neg at hall
    obtain ⟨w, hw⟩ := List.exists_mem_of_ne_nil _ hNE.2.2.2
    have := hG4 ⟨w, hw, hall w hw⟩
    rw [hopen] at this
    cases this
  obtain ⟨w, hwmem, hwne⟩ := hnotall
  obtain ⟨i, hilt, hieq⟩ := List.mem_iff_getElem.mp hwmem
  have hi : s.imgWs[i]? = some w := by rw [List.getElem?_eq_getElem hilt, hieq]
  cases w with
  | done => exact absurd rfl hwne
  | idle =>
    obtain ⟨ps, rest, hcons⟩ : ∃ ps rest, s.imgChan.buf = ps :: rest := by
      cases hb : s.imgChan.buf with
      | nil => exact absurd hb hbuf
      | cons a l => exact ⟨a, l, rfl⟩
    exact ⟨_, .imgRecv s i ps rest hi hcons⟩

/-- A status worker holding an image message always has a step. -/
theorem statusHold_step (env : Env) (s : PState) (hinv : Inv s) (i : Nat)
    (ps : List Product) (hi : s.statusWs[i]? = some (.holdImgs ps))
    (himg : 1 ≤ env.imgCap) : ∃ s', Step env s s' := by
  cases hcl : s.imgChan.closed with
  | true => exact ⟨_, .statusSendImgClosed s i ps hi hcl⟩
  | false =>
    by_cases hroom : s.imgChan.buf.length < env.imgCap
    · exact ⟨_, .statusSendImg s i ps hi hcl hroom⟩
    · refine imgBuf_step env s hinv ?_ hcl
      intro hnil
      rw [hnil] at hroom
      simp at hroom
      omega

/-- If the outcome channel is open and non-empty, some step is enabled. -/
theorem statusBuf_step (env : Env) (s : PState) (hinv : Inv s)
    (hbuf : s.statChan.buf ≠ []) (hopen : s.statChan.closed = false)
    (himg : 1 ≤ env.imgCap) : ∃ s', Step env s s' := by
  have hinv' := hinv
  obtain ⟨-, -, -, -, -, -, -, -, -, -, hG3, -, -, -, hD, hNE, -⟩ := hinv'
  have hnotall : ∃ w ∈ s.statusWs, w ≠ SWState.done := by
    by_contra hall
    push_neg at hall
    obtain ⟨w, hw⟩ := List.exists_mem_of_ne_nil _ hNE.2.2.1
    have := hG3 ⟨w, hw, hall w hw⟩
    rw [hopen] at this
    cases this
  obtain ⟨w, hwmem, hwne⟩ := hnotall
  obtain ⟨i, hilt, hieq⟩ := List.mem_iff_getElem.mp hwmem
  have hi : s.statusWs[i]? = some w := by rw [List.getElem?_eq_getElem hilt, hieq]
  cases w with
  | done => exact absurd rfl hwne
  | idle =>
    obtain ⟨st, rest, hcons⟩ : ∃ st rest, s.statChan.buf = st :: rest := by
      cases hb : s.statChan.buf with
      | nil => exact absurd hb hbuf
      | cons a l => exact ⟨a, l, rfl⟩
    exact ⟨_, .statusRecv s i st rest hi hcons⟩
  | holdImgs ps => exact statusHold_step env s hinv i ps hi himg
  | holdJob j => exact absurd rfl ((hD _ hwmem).1 j)
  | crashed => exact absurd rfl (hD _ hwmem).2

/-- A persistence worker holding an outcome always has a step. -/
theorem jobHold_step (env : Env) (s : PState) (hinv : Inv s) (i : Nat)
    (st : JobStatus) (hi : s.jobWs[i]? = some (.holding st))
    (hstat : 1 ≤ env.statCap) (himg : 1 ≤ env.imgCap) : ∃ s', Step env s s' := by
  cases hcl : s.statChan.closed with
  | true => exact ⟨_, .jobSendClosed s i st hi hcl⟩
  | false =>
    by_cases hroom : s.statChan.buf.length < env.statCap
    · exact ⟨_, .jobSend s i st hi hcl hroom⟩
    · refine statusBuf_step env s hinv ?_ hcl himg
      intro hnil
      rw [hnil] at hroom
      simp at hroom
      omega

/-- If the job channel is open and non-empty, some step is enabled. -/
theorem jobBuf_step (env : Env) (s : PState) (hinv : Inv s)
    (hbuf : s.jobsChan.buf ≠ []) (hopen : s.jobsChan.closed = false)
    (hstat : 1 ≤ env.statCap) (himg : 1 ≤ env.imgCap) : ∃ s', Step env s s' := by
  have hinv' := hinv
  obtain ⟨-, -, -, -, -, -, -, -, -, hG2, -, -, -, -, -, hNE, -⟩ := hinv'
  have hnotall : ∃ w ∈ s.jobWs, w ≠ JWState.done := by
    by_contra hall
    push_neg at hall
    obtain ⟨w, hw⟩ := List.exists_mem_of_ne_nil _ hNE.2.1
    have := hG2 ⟨w, hw, hall w hw⟩
    rw [hopen] at this
    cases this
  obtain ⟨w, hwmem, hwne⟩ := hnotall
  obtain ⟨i, hilt, hieq⟩ := List.mem_iff_getElem.mp hwmem
  have hi : s.jobWs[i]? = some w := by rw [List.getElem?_eq_getElem hilt, hieq]
  cases w with
  | done => exact absurd rfl hwne
  | idle =>
    obtain ⟨j, rest, hcons⟩ : ∃ j rest, s.jobsChan.buf = j :: rest := by
      cases hb : s.jobsChan.buf with
      | nil => exact absurd hb hbuf
      | cons a l => exact ⟨a, l, rfl⟩
    exact ⟨_, .jobRecv s i j rest hi hcons⟩
  | holding st => exact jobHold_step env s hinv i st hi hstat himg

/-- A data worker holding a job always has a step. -/
theorem dataHold_step (env : Env) (s : PState) (hinv : Inv s) (i : Nat)
    (j : Job) (hi : s.dataWs[i]? = some (.holding j))
    (hjobs : 1 ≤ env.jobsCap) (hstat : 1 ≤ env.statCap) (himg : 1 ≤ env.imgCap) :
    ∃ s', Step env s s' := by
  cases hcl : s.jobsChan.closed with
  | true => exact ⟨_, .dataSendClosed s i j hi hcl⟩
  | false =>
    by_cases hroom : s.jobsChan.buf.length < env.jobsCap
    · exact ⟨_, .dataSend s i j hi hcl hroom⟩
    · refine jobBuf_step env s hinv ?_ hcl hstat himg
      intro hnil
      rw [hnil] at hroom
      simp at hroom
      omega

/-- Every reachable stuck state of the success-only pipeline is the clean
terminal state: main has passed all four waits and every worker has
exited. -/
theorem stuck_allDone (env : Env) (s : PState) (hinv : Inv s)
    (hstuck : Stuck env s)
    (hdc : 1 ≤ env.dcCap) (hjobs : 1 ≤ env.jobsCap)
    (hstat : 1 ≤ env.statCap) (himg : 1 ≤ env.imgCap) : AllDone s := by
  have hinv' := hinv
  obtain ⟨hA1, hA2, hA3, hA4, hB1, hB2, hB3, hB4, hG1, hG2, hG3, hG4, hE, hF, hD,
    hNE, hP⟩ := hinv'
  cases hm : s.mainpc with
  | seeding pending =>
    exfalso
    cases pending with
    | nil => exact hstuck _ (.mainCloseDc s hm)
    | cons dc pend =>
      by_cases hroom : s.dcChan.buf.length < env.dcCap
      · exact hstuck _ (.mainSend s dc pend hm hroom)
      · have hopen : s.dcChan.closed = false := by
          cases hcl : s.dcChan.closed
          · rfl
          · have := hA1.mp hcl
            rw [hm] at this
            simp [rank] at this
        have hnotall : ∃ w ∈ s.dataWs, w ≠ DWState.done := by
          by_contra hall
          push_neg at hall
          obtain ⟨w, hw⟩ := List.exists_mem_of_ne_nil _ hNE.1
          have := hG1 ⟨w, hw, hall w hw⟩
          rw [hopen] at this
          cases this
        obtain ⟨w, hwmem, hwne⟩ := hnotall
        obtain ⟨i, hilt, hieq⟩ := List.mem_iff_getElem.mp hwmem
        have hi : s.dataWs[i]? = some w := by rw [List.getElem?_eq_getElem hilt, hieq]
        cases w with
        | done => exact absurd rfl hwne
        | idle =>
          obtain ⟨d, rest, hcons⟩ : ∃ d rest, s.dcChan.buf = d :: rest := by
            cases hb : s.dcChan.buf with
            | nil =>
              rw [hb] at hroom
              simp at hroom
              omega
            | cons a l => exact ⟨a, l, rfl⟩
          exact hstuck _ (.dataRecv s i d rest hi hcons)
        | holding j =>
          obtain ⟨s', hs'⟩ := dataHold_step env s hinv i j hi hjobs hstat himg
          exact hstuck _ hs'
  | waitData =>
    exfalso
    by_cases hall : ∀ w ∈ s.dataWs, w = DWState.done
    · exact hstuck _ (.mainCloseJobs s hm hall)
    · push_neg at hall
      obtain ⟨w, hwmem, hwne⟩ := hall
      obtain ⟨i, hilt, hieq⟩ := List.mem_iff_getElem.mp hwmem
      have hi : s.dataWs[i]? = some w := by rw [List.getElem?_eq_getElem hilt, hieq]
      have hclosed : s.dcChan.closed = true := hA1.mpr (by rw [hm]; simp [rank])
      cases w with
      | done => exact absurd rfl hwne
      | idle =>
        cases hb : s.dcChan.buf with
        | nil => exact hstuck _ (.dataExit s i hi hb hclosed)
        | cons d rest => exact hstuck _ (.dataRecv s i d rest hi hb)
      | holding j =>
        obtain ⟨s', hs'⟩ := dataHold_step env s hinv i j hi hjobs hstat himg
        exact hstuck _ hs'
  | waitJobs =>
    exfalso
    by_cases hall : ∀ w ∈ s.jobWs, w = JWState.done
    · exact hstuck _ (.mainCloseStat s hm hall)
    · push_neg at hall
      obtain ⟨w, hwmem, hwne⟩ := hall
      obtain ⟨i, hilt, hieq⟩ := List.mem_iff_getElem.mp hwmem
      have hi : s.jobWs[i]? = some w := by rw [List.getElem?_eq_getElem hilt, hieq]
      have hclosed : s.jobsChan.closed = true := hA2.mpr (by rw [hm]; simp [rank])
      cases w with
      | done => exact absurd rfl hwne
      | idle =>
        cases hb : s.jobsChan.buf with
        | nil => exact hstuck _ (.jobExit s i hi hb hclosed)
        | cons j rest => exact hstuck _ (.jobRecv s i j rest hi hb)
      | holding st =>
        obtain ⟨s', hs'⟩ := jobHold_step env s hinv i st hi hstat himg
        exact hstuck _ hs'
  | waitStatus =>
    exfalso
    by_cases hall : ∀ w ∈ s.statusWs, w = SWState.done
    · exact hstuck _ (.mainCloseImg s hm hall)
    · push_neg at hall
      obtain ⟨w, hwmem, hwne⟩ := hall
      obtain ⟨i, hilt, hieq⟩ := List.mem_iff_getElem.mp hwmem
      have hi : s.statusWs[i]? = some w := by rw [List.getElem?_eq_getElem hilt, hieq]
      have hclosed : s.statChan.closed = true := hA3.mpr (by rw [hm]; simp [rank])
      cases w with
      | done => exact absurd rfl hwne
      | idle =>
        cases hb : s.statChan.buf with
        | nil => exact hstuck _ (.statusExit s i hi hb hclosed)
        | cons st rest => exact hstuck _ (.statusRecv s i st rest hi hb)
      | holdImgs ps =>
        obtain ⟨s', hs'⟩ := statusHold_step env s hinv i ps hi himg
        exact hstuck _ hs'
      | holdJob j => exact absurd rfl ((hD _ hwmem).1 j)
      | crashed => exact absurd rfl (hD _ hwmem).2
  | waitImage =>
    exfalso
    by_cases hall : ∀ w ∈ s.imgWs, w = IWState.done
    · exact hstuck _ (.mainFinish s hm hall)
    · push_neg at hall
      obtain ⟨w, hwmem, hwne⟩ := hall
      obtain ⟨i, hilt, hieq⟩ := List.mem_iff_getElem.mp hwmem
      have hi : s.imgWs[i]? = some w := by rw [List.getElem?_eq_getElem hilt, hieq]
      have hclosed : s.imgChan.closed = true := hA4.mpr (by rw [hm]; simp [rank])
      cases w with
      | done => exact absurd rfl hwne
      | idle =>
        cases hb : s.imgChan.buf with
        | nil => exact hstuck _ (.imgExit s i hi hb hclosed)
        | cons ps rest => exact hstuck _ (.imgRecv s i ps rest hi hb)
  | mdone =>
    rw [hm] at hB1 hB2 hB3 hB4
    simp only [rank] at hB1 hB2 hB3 hB4
    exact ⟨hm, hB1 (by omega), hB2 (by omega), hB3 (by omega), hB4 (by omega)⟩

/-- The invariant holds in every reachable state of a success-only run. -/
theorem inv_reach (env : Env) (hsucc : ∀ j, env.storeRes j = none)
    (n : Nat) (seeds : List DataContext) (hn : 1 ≤ n)
    (s : PState) (h : Reach env (initState n seeds) s) : Inv s := by
  induction h with
  | refl => exact inv_init n seeds hn
  | tail hr hstep ih => exact inv_step env hsucc _ _ ih hstep

/-- C5 counterexample: the claimed guarantee that no send ever occurs on a
closed channel — including the status stage's feedback re-submissions —
fails.  With one worker per stage, one seeded request, and a store whose
writes fail with a no-key unique violation, there is a reachable execution
in which main closes the job channel (after the data wait-group reaches
zero, exactly in the specified order) and the status worker subsequently
re-submits the repaired job into that closed channel: a send on a closed
channel (runtime panic). -/
theorem c5_feedback_send_on_closed :
    ∃ s : PState, Reach cexEnv (initState 1 [scenarioADC]) s ∧ s.panicked = true := by
  refine ⟨c5s10, ?_, rfl⟩
  have h1 : Step cexEnv c5s0 c5s1 := .mainSend c5s0 scenarioADC [] rfl (by decide)
  have h2 : Step cexEnv c5s1 c5s2 := .mainCloseDc c5s1 rfl
  have h3 : Step cexEnv c5s2 c5s3 := .dataRecv c5s2 0 scenarioADC [] rfl rfl
  have h4 : Step cexEnv c5s3 c5s4 := .dataSend c5s3 0 cexJob rfl rfl (by decide)
  have h5 : Step cexEnv c5s4 c5s5 := .dataExit c5s4 0 rfl rfl rfl
  have h6 : Step cexEnv c5s5 c5s6 := .mainCloseJobs c5s5 rfl (by decide)
  have h7 : Step cexEnv c5s6 c5s7 := .jobRecv c5s6 0 cexJob [] rfl rfl
  have h8 : Step cexEnv c5s7 c5s8 := .jobSend c5s7 0 cexStatus rfl rfl (by decide)
  have h9 : Step cexEnv c5s8 c5s9 := .statusRecv c5s8 0 cexStatus [] rfl rfl
  have h10 : Step cexEnv c5s9 c5s10 := .statusResubmitClosed c5s9 0 cexJob rfl rfl
  exact ((((((((((Relation.ReflTransGen.refl).tail h1).tail h2).tail h3).tail h4).tail
    h5).tail h6).tail h7).tail h8).tail h9).tail h10

/-- C5 amended: if no persistence attempt fails (so the status stage never
re-submits into the job channel), then with at least one worker per stage
and channel capacities at least one, the seeding loop followed by the
specified close/wait ladder is safe and live: no reachable state has
performed a send on a closed channel, every reachable stuck state has main
past all four waits with every stage's workers exited (all wait-groups at
zero, no goroutine leak), and every step strictly decreases a finite
measure, so every maximal execution terminates in that clean state.  The
restriction to runs without feedback re-submissions is forced by the
counterexample: a re-submission after the job channel closes is a send on a
closed channel. -/
theorem c5_shutdown_safety_amended (env : Env) (n : Nat) (seeds : List DataContext)
    (hsucc : ∀ j, env.storeRes j = none) (hn : 1 ≤ n)
    (hdc : 1 ≤ env.dcCap) (hjobs : 1 ≤ env.jobsCap)
    (hstat : 1 ≤ env.statCap) (himg : 1 ≤ env.imgCap)
    (s : PState) (hreach : Reach env (initState n seeds) s) :
    s.panicked = false ∧ (Stuck env s → AllDone s) ∧
      ∀ s', Step env s s' → pipeMeasure s' < pipeMeasure s := by
  have hinv := inv_reach env hsucc n seeds hn s hreach
  refine ⟨?_, ?_, ?_⟩
  · exact hinv.2.2.2.2.2.2.2.2.2.2.2.2.2.2.2.2
  · intro hstuck
    exact stuck_allDone env s hinv hstuck hdc hjobs hstat himg
  · intro s' hstep
    exact pipeMeasure_step env s s' hinv hstep

/-- C5 amended, witness: the shutdown-safety theorem applied at a concrete
success-only one-worker-per-stage configuration and its initial state. -/
theorem c5_shutdown_safety_amended_witness :
    (initState 1 [scenarioADC]).panicked = false ∧
      (Stuck succEnv (initState 1 [scenarioADC]) → AllDone (initState 1 [scenarioADC])) ∧
      ∀ s', Step succEnv (initState 1 [scenarioADC]) s' →
        pipeMeasure s' < pipeMeasure (initState 1 [scenarioADC]) :=
  c5_shutdown_safety_amended succEnv 1 [scenarioADC] (fun _ => rfl) (by decide)
    (by decide) (by decide) (by decide) (by decide) (initState 1 [scenarioADC])
    Relation.ReflTransGen.refl

/-- C10 amended, witness at concrete non-empty inputs. -/
theorem c10_nonempty_no_panic_witness :
    processImageBatch "dir/" "200w.jpg" [imgProdA] (some imgStoreRows) idFetch ≠ none ∧
      handleStatus pgOtherStatus ≠ .panic :=
  ⟨c10_nonempty_no_panic.1 Int "dir/" "200w.jpg" [imgProdA] (some imgStoreRows) idFetch
      (by decide),
    c10_nonempty_no_panic.2 pgOtherStatus "42P01" "relation does not exist" rfl rfl
      (by decide) (by decide)⟩

end Tcd
